import Mathlib

/-!
# Rate My Ride: voting page, leaderboard page, upload page and the voting core

A shallow embedding of the React front end (`VotingPage.jsx`, `LeaderboardPage.jsx`,
`UploadPage.jsx`) and of the voting-and-ranking core described by the specification.

Conventions of the embedding.

* A component's `useState` cells form a record; an event handler is a function from the
  record seen by the handler's closure and the outcome of the one request it awaits to
  the record after the handler has run, paired with the list of effects it performed
  (requests, console output, alerts, timers) in program order.
* Counters are integers. `Car.score` is the number as the response writes it. Where the
  source does arithmetic on it (the percentage), the embedding takes the double JavaScript
  holds for it (`roundToDouble`) and rounds the product as IEEE 754 binary64 does, to
  nearest with ties to even; the colour thresholds compare the written number with the
  written literal.
* Request paths are relative to the constant `API`.
-/

namespace RateMyRide

/-! ## Shared data -/

/-- A car record as the API returns it (`response.data` of `/cars/random`, an element of
`response.data` of `/cars/leaderboard`). -/
structure Car where
  id : String
  photo : String
  hot_votes : Int
  not_votes : Int
  total_votes : Int
  score : ℚ
deriving DecidableEq

/-- A JavaScript number other than `NaN`: a finite double with its exact value,
`Infinity` or `-Infinity`. -/
inductive Number where
  | finite (value : ℚ)
  | infinity
  | negInfinity
deriving DecidableEq

/-- Halving `n` until it is below 2, at most `fuel` times: the number of halvings. -/
def log2Steps : Nat → Nat → Nat
  | 0, _ => 0
  | fuel + 1, n => if 2 ≤ n then log2Steps fuel (n / 2) + 1 else 0

/-- The position of the leading bit of `n`: `⌊log₂ n⌋` for `n ≥ 1`. -/
def floorLog2 (n : Nat) : Nat := log2Steps n n

/-- The binary exponent of a nonzero rational: the `e` with `2 ^ e ≤ |x| < 2 ^ (e + 1)`. -/
def binade (x : ℚ) : Int :=
  let d : Int := (floorLog2 x.num.natAbs : Int) - (floorLog2 x.den : Int)
  if (2 : ℚ) ^ d ≤ |x| then d else d - 1

/-- Rounding to the nearest integer, a tie going to the even one. -/
def roundHalfEven (r : ℚ) : Int :=
  if r - ⌊r⌋ < 1 / 2 then ⌊r⌋
  else if r - ⌊r⌋ > 1 / 2 then ⌊r⌋ + 1
  else if ⌊r⌋ % 2 = 0 then ⌊r⌋
  else ⌊r⌋ + 1

/-- The spacing of the doubles around `x`: 53 significant bits, and the subnormal spacing
`2 ^ (-1074)` below `2 ^ (-1022)`. -/
def quantum (x : ℚ) : ℚ := 2 ^ (max (binade x) (-1022) - 52)

/-- The double nearest to a real number, a tie going to the even significand (IEEE 754
binary64 round-to-nearest-even); what is rounded to `2 ^ 1024` or beyond is infinite. This
is the value of a number written in a JSON response and the result of an arithmetic
operation whose exact result is `x`. -/
def roundToDouble (x : ℚ) : Number :=
  let y : ℚ := roundHalfEven (x / quantum x) * quantum x
  if y ≥ 2 ^ 1024 then Number.infinity
  else if y ≤ -2 ^ 1024 then Number.negInfinity
  else Number.finite y

/-- The product `x * 100` of doubles. -/
def Number.times100 : Number → Number
  | Number.finite value => roundToDouble (value * 100)
  | Number.infinity => Number.infinity
  | Number.negInfinity => Number.negInfinity

/-- `Math.round`: the nearest integer, a tie going towards `+∞`. -/
def Math.round : Number → Number
  | Number.finite value => Number.finite ⌊value + 1 / 2⌋
  | Number.infinity => Number.infinity
  | Number.negInfinity => Number.negInfinity

/-- The error object caught around an `axios` call; `responseStatus` is
`error.response?.status` (`none` when there was no response at all). -/
structure AxiosError where
  responseStatus : Option Nat
deriving DecidableEq

/-- `String.prototype.startsWith`: whether `searchString` is an initial segment of `s`. -/
def startsWith (s searchString : String) : Bool :=
  searchString.toList.isPrefixOf s.toList

/-- JavaScript truthiness of a state cell that holds `null` or a string. -/
def truthy : Option String → Bool
  | none => false
  | some s => s != ""

/-! ## VotingPage.jsx -/

namespace VotingPage

/-- The six `useState` cells of `VotingPage`. -/
structure State where
  currentCar : Option Car
  loading : Bool
  voting : Bool
  voted : Bool
  error : Option String
  votesCount : Nat
deriving DecidableEq

/-- The initial values passed to `useState`. -/
def State.init : State :=
  { currentCar := none, loading := true, voting := false, voted := false,
    error := none, votesCount := 0 }

/-- Body of the `POST /cars/vote` request. -/
structure VoteBody where
  car_id : String
  is_hot : Bool
deriving DecidableEq

/-- Effects a handler of the voting page performs. -/
inductive Effect where
  | get (path : String)
  | post (path : String) (body : VoteBody)
  | consoleError (msg : String)
  | alert (msg : String)
  | setTimeoutFetchRandomCar (ms : Nat)
deriving DecidableEq

/-- The vote requests among a list of effects, in order. -/
def voteRequests : List Effect → List VoteBody
  | [] => []
  | Effect.post _ body :: rest => body :: voteRequests rest
  | _ :: rest => voteRequests rest

/-- Whether an effect is an HTTP request. -/
def Effect.isRequest : Effect → Bool
  | Effect.get _ => true
  | Effect.post _ _ => true
  | _ => false

/-- `fetchRandomCar` (lines 20-37), given the outcome of `axios.get`. -/
def fetchRandomCar (s : State) (outcome : Except AxiosError Car) : State × List Effect :=
  let s := { s with loading := true }
  let s := { s with error := none }
  match outcome with
  | Except.ok data =>
    let s := { s with currentCar := some data }
    let s := { s with voted := false }
    ({ s with loading := false }, [Effect.get "/cars/random"])
  | Except.error error =>
    let s :=
      if error.responseStatus = some 404 then
        { s with error := some "No cars available yet. Be the first to upload one!" }
      else
        { s with error := some "Failed to load cars. Please try again." }
    ({ s with loading := false },
      [Effect.get "/cars/random", Effect.consoleError "Error fetching car:"])

/-- `handleVote` (lines 39-62), given the outcome of `axios.post`. -/
def handleVote (s : State) (isHot : Bool) (outcome : Except AxiosError Unit) :
    State × List Effect :=
  match s.currentCar with
  | none => (s, [])
  | some currentCar =>
    if s.voting then (s, [])
    else
      let s := { s with voting := true }
      let request := Effect.post "/cars/vote" { car_id := currentCar.id, is_hot := isHot }
      match outcome with
      | Except.ok _ =>
        let s := { s with voted := true }
        let s := { s with votesCount := s.votesCount + 1 }
        (s, [request, Effect.setTimeoutFetchRandomCar 1500])
      | Except.error _ =>
        ({ s with voting := false },
          [request, Effect.consoleError "Error voting:",
            Effect.alert "Failed to record vote. Please try again."])

/-- What an `onClick` of the voting page invokes. -/
inductive Action where
  | handleVote (isHot : Bool)
  | fetchRandomCar
  | navigate (path : String)
deriving DecidableEq

/-- A rendered `VoteButton` (lines 68-79). -/
structure VoteButtonView where
  isHot : Bool
  onClick : Action
  disabled : Bool
  label : String
deriving DecidableEq

/-- The `VoteButton` component (lines 68-79). -/
def VoteButton (s : State) (isHot : Bool) (onClick : Action) (label : String) :
    VoteButtonView :=
  { isHot := isHot, onClick := onClick, disabled := s.voting || s.voted, label := label }

/-- The two vote buttons (lines 148-163). -/
def voteButtons (s : State) : List VoteButtonView :=
  [VoteButton s true (Action.handleVote true) "HOT",
   VoteButton s false (Action.handleVote false) "NOT"]

/-- The hot-score percentage of the car stats (lines 179-181). -/
def hotScore (currentCar : Car) : Number :=
  if currentCar.total_votes > 0 then Math.round (roundToDouble currentCar.score).times100
  else Number.finite 0

/-- The main content of the voting page (lines 106-210). -/
inductive MainView where
  | loadingCard
  | errorCard (msg : Option String)
  | carView (photo : String) (buttons : List VoteButtonView) (hot_votes not_votes : Int)
      (hotScorePercent : Number) (votedBanner : Bool) (nextDisabled : Bool)
  | nothing
deriving DecidableEq

/-- The voting page as rendered from a state (lines 81-214). -/
structure View where
  votesCast : String
  main : MainView
deriving DecidableEq

/-- The render function of `VotingPage`. -/
def render (s : State) : View :=
  { votesCast := "Votes cast: " ++ toString s.votesCount
    main :=
      if s.loading then MainView.loadingCard
      else if truthy s.error then MainView.errorCard s.error
      else
        match s.currentCar with
        | some currentCar =>
          MainView.carView currentCar.photo (voteButtons s) currentCar.hot_votes
            currentCar.not_votes (hotScore currentCar) s.voted s.loading
        | none => MainView.nothing }

/-- One handler run of the voting page: `fetchRandomCar` (on mount, by the timer of a
successful vote, or by a button) or `handleVote` (by a vote button), each with the
outcome of its request. -/
inductive Step : State → State → Prop where
  | fetch (s : State) (outcome : Except AxiosError Car) :
      Step s (fetchRandomCar s outcome).1
  | vote (s : State) (isHot : Bool) (outcome : Except AxiosError Unit) :
      Step s (handleVote s isHot outcome).1

/-- The states a mounted voting page can be in between handler runs. -/
inductive Reachable : State → Prop where
  | init : Reachable State.init
  | step {s t : State} : Reachable s → Step s t → Reachable t

/-- One handler run with its arguments and the outcome of its request. -/
inductive Event where
  | fetchRandomCar (outcome : Except AxiosError Car)
  | handleVote (isHot : Bool) (outcome : Except AxiosError Unit)

/-- The handler run an event stands for. -/
def perform (s : State) : Event → State × List Effect
  | Event.fetchRandomCar outcome => fetchRandomCar s outcome
  | Event.handleVote isHot outcome => handleVote s isHot outcome

/-- The state after a sequence of handler runs. -/
def run (s : State) : List Event → State
  | [] => s
  | e :: es => run (perform s e).1 es

/-- The vote requests sent during a sequence of handler runs, in order. -/
def requestsSent (s : State) : List Event → List VoteBody
  | [] => []
  | e :: es => voteRequests (perform s e).2 ++ requestsSent (perform s e).1 es

/-- The number of votes that succeeded during a sequence of handler runs: the
`handleVote` runs that sent their request and whose request was accepted. -/
def successfulVotes (s : State) : List Event → Nat
  | [] => 0
  | Event.handleVote isHot (Except.ok a) :: es =>
    (voteRequests (handleVote s isHot (Except.ok a)).2).length
      + successfulVotes (handleVote s isHot (Except.ok a)).1 es
  | e :: es => successfulVotes (perform s e).1 es

end VotingPage

/-! ## LeaderboardPage.jsx -/

namespace LeaderboardPage

/-- The three `useState` cells of `LeaderboardPage`. -/
structure State where
  leaderboard : List Car
  loading : Bool
  error : Option String
deriving DecidableEq

/-- The initial values passed to `useState`. -/
def State.init : State := { leaderboard := [], loading := true, error := none }

/-- Effects `fetchLeaderboard` performs. -/
inductive Effect where
  | get (path : String)
  | consoleError (msg : String)
deriving DecidableEq

/-- The message `fetchLeaderboard` stores on failure (line 26). -/
def failedMessage : String := "Failed to load leaderboard. Please try again."

/-- `fetchLeaderboard` (lines 18-30), given the outcome of `axios.get`. -/
def fetchLeaderboard (s : State) (outcome : Except AxiosError (List Car)) :
    State × List Effect :=
  let s := { s with loading := true }
  let s := { s with error := none }
  match outcome with
  | Except.ok data =>
    let s := { s with leaderboard := data }
    ({ s with loading := false }, [Effect.get "/cars/leaderboard?limit=20"])
  | Except.error _ =>
    let s := { s with error := some failedMessage }
    ({ s with loading := false },
      [Effect.get "/cars/leaderboard?limit=20",
        Effect.consoleError "Error fetching leaderboard:"])

/-- Every write to a state cell that occurs in the component: the setter calls of
`fetchLeaderboard`, taken one at a time so that every interleaving of overlapping
fetches and every intermediate render is covered. -/
inductive Write : State → State → Prop where
  | setLoading (s : State) (b : Bool) : Write s { s with loading := b }
  | setErrorNull (s : State) : Write s { s with error := none }
  | setErrorFailed (s : State) : Write s { s with error := some failedMessage }
  | setLeaderboard (s : State) (data : List Car) : Write s { s with leaderboard := data }

/-- The states the component can be rendered in. -/
inductive Reachable : State → Prop where
  | init : Reachable State.init
  | write {s t : State} : Reachable s → Write s t → Reachable t

/-- The icon of `getRankIcon` (lines 36-47). -/
inductive RankIcon where
  | trophy
  | medal
  | award
  | number (text : String)
deriving DecidableEq

/-- `getRankIcon` (lines 36-47). -/
def getRankIcon (position : Nat) : RankIcon :=
  match position with
  | 1 => RankIcon.trophy
  | 2 => RankIcon.medal
  | 3 => RankIcon.award
  | _ => RankIcon.number ("#" ++ toString position)

/-- The badge of `getRankBadge`: its colour classes (`none` for the outline variant) and
its text. -/
structure RankBadge where
  className : Option String
  text : String
deriving DecidableEq

/-- `getRankBadge` (lines 49-59). -/
def getRankBadge (position : Nat) : RankBadge :=
  if position ≤ 3 then
    let colors : Nat → Option String := fun k =>
      match k with
      | 1 => some "bg-yellow-500 text-white"
      | 2 => some "bg-gray-400 text-white"
      | 3 => some "bg-amber-600 text-white"
      | _ => none
    { className := colors position, text := "#" ++ toString position }
  else
    { className := none, text := "#" ++ toString position }

/-- `getScoreColor` (lines 61-66). -/
def getScoreColor (score : ℚ) : String :=
  if score ≥ 0.8 then "text-red-500"
  else if score ≥ 0.6 then "text-orange-500"
  else if score ≥ 0.4 then "text-yellow-500"
  else "text-gray-500"

/-- The position of a colour class among the four score bands, the lowest band first. -/
def bandRank (className : String) : Nat :=
  if className = "text-red-500" then 3
  else if className = "text-orange-500" then 2
  else if className = "text-yellow-500" then 1
  else 0

/-- The hot-score percentage of a top-3 card (line 150). -/
def showcaseHotScore (car : Car) : Number :=
  if car.total_votes > 0 then Math.round (roundToDouble car.score).times100
  else Number.finite 0

/-- The hot-score percentage of a ranking row (line 202). -/
def rankingHotScore (car : Car) : Number :=
  if car.total_votes > 0 then Math.round (roundToDouble car.score).times100
  else Number.finite 0

/-- One card of the top-3 showcase (lines 137-163). -/
structure ShowcaseCard where
  key : String
  icon : RankIcon
  photo : String
  alt : String
  scoreColor : String
  hotScorePercent : Number
  hot_votes : Int
  not_votes : Int
deriving DecidableEq

/-- The callback of `leaderboard.slice(0, 3).map` (lines 136-164). -/
def showcaseCard (index : Nat) (car : Car) : ShowcaseCard :=
  { key := car.id
    icon := getRankIcon (index + 1)
    photo := car.photo
    alt := "#" ++ toString (index + 1) ++ " car"
    scoreColor := getScoreColor car.score
    hotScorePercent := showcaseHotScore car
    hot_votes := car.hot_votes
    not_votes := car.not_votes }

/-- One row of the full ranking (lines 178-224). -/
structure RankingRow where
  key : String
  highlighted : Bool
  badge : RankBadge
  photo : String
  alt : String
  scoreColor : String
  hotScorePercent : Number
  hot_votes : Int
  not_votes : Int
  total_votes : Int
  trophy : Option RankIcon
deriving DecidableEq

/-- The callback of `leaderboard.map` (lines 177-225). -/
def rankingRow (index : Nat) (car : Car) : RankingRow :=
  { key := car.id
    highlighted := decide (index < 3)
    badge := getRankBadge (index + 1)
    photo := car.photo
    alt := "Car #" ++ toString (index + 1)
    scoreColor := getScoreColor car.score
    hotScorePercent := rankingHotScore car
    hot_votes := car.hot_votes
    not_votes := car.not_votes
    total_votes := car.total_votes
    trophy := if index < 3 then some (getRankIcon (index + 1)) else none }

/-- `leaderboard.slice(0, 3)`. -/
def topThree (leaderboard : List Car) : List Car := leaderboard.take 3

/-- The top-3 showcase (lines 126-168): absent when the slice is empty. -/
def showcase (leaderboard : List Car) : Option (List ShowcaseCard) :=
  if (topThree leaderboard).length > 0 then
    some ((topThree leaderboard).mapIdx showcaseCard)
  else none

/-- The full ranking (lines 177-225). -/
def fullRanking (leaderboard : List Car) : List RankingRow :=
  leaderboard.mapIdx rankingRow

/-- The main content of the leaderboard page (lines 94-238). -/
inductive View where
  | loadingCard
  | errorCard (msg : Option String)
  | emptyCard
  | list (showcase : Option (List ShowcaseCard)) (rows : List RankingRow)
deriving DecidableEq

/-- The render function of `LeaderboardPage` (lines 94-238). -/
def render (s : State) : View :=
  if s.loading then View.loadingCard
  else if truthy s.error then View.errorCard s.error
  else if s.leaderboard.length = 0 then View.emptyCard
  else View.list (showcase s.leaderboard) (fullRanking s.leaderboard)

end LeaderboardPage

/-! ## UploadPage.jsx -/

namespace UploadPage

/-- A browser `File`: its name and its MIME type. -/
structure File where
  name : String
  type : String
deriving DecidableEq

/-- The four `useState` cells of `UploadPage`. -/
structure State where
  selectedFile : Option File
  preview : Option String
  uploading : Bool
  uploaded : Bool
deriving DecidableEq

/-- The initial values passed to `useState`. -/
def State.init : State :=
  { selectedFile := none, preview := none, uploading := false, uploaded := false }

/-- Effects `handleUpload` performs. -/
inductive Effect where
  | readAsDataURL (file : File)
  | post (path : String) (photo : String)
  | consoleLog (msg : String)
  | consoleError (msg : String)
  | alert (msg : String)
  | setTimeoutNavigate (ms : Nat) (path : String)
deriving DecidableEq

/-- The upload requests among a list of effects, in order. -/
def uploadRequests : List Effect → List String
  | [] => []
  | Effect.post _ photo :: rest => photo :: uploadRequests rest
  | _ :: rest => uploadRequests rest

/-- `handleUpload` (lines 41-66). `conversion` is the outcome of `convertToBase64`
(the data URL, or the reader's error) and `upload` the outcome of `axios.post`, which
is awaited only after the conversion has resolved. -/
def handleUpload (s : State) (conversion : Except Unit String)
    (upload : Except AxiosError String) : State × List Effect :=
  match s.selectedFile with
  | none => (s, [])
  | some selectedFile =>
    let s := { s with uploading := true }
    match conversion with
    | Except.error _ =>
      ({ s with uploading := false },
        [Effect.readAsDataURL selectedFile, Effect.consoleError "Upload failed:",
          Effect.alert "Upload failed. Please try again."])
    | Except.ok base64String =>
      match upload with
      | Except.ok _ =>
        let s := { s with uploaded := true }
        ({ s with uploading := false },
          [Effect.readAsDataURL selectedFile, Effect.post "/cars/upload" base64String,
            Effect.consoleLog "Upload successful:", Effect.setTimeoutNavigate 2000 "/vote"])
      | Except.error _ =>
        ({ s with uploading := false },
          [Effect.readAsDataURL selectedFile, Effect.post "/cars/upload" base64String,
            Effect.consoleError "Upload failed:",
            Effect.alert "Upload failed. Please try again."])

/-- `handleFileSelect` (lines 18-30). `files` is `event.target.files` and `dataURL` what
the reader hands to `onload` (`none` if the read never completes). -/
def handleFileSelect (s : State) (files : List File) (dataURL : Option String) : State :=
  match files.head? with
  | none => s
  | some file =>
    if startsWith file.type "image/" then
      let s := { s with selectedFile := some file }
      match dataURL with
      | some result => { s with preview := some result }
      | none => s
    else s

/-- `handleDrop` (lines 72-87). `files` is `e.dataTransfer.files` and `dataURL` what the
reader hands to `onload` (`none` if the read never completes). -/
def handleDrop (s : State) (files : List File) (dataURL : Option String) : State :=
  if files.length > 0 then
    match files.head? with
    | none => s
    | some file =>
      if startsWith file.type "image/" then
        let s := { s with selectedFile := some file }
        match dataURL with
        | some result => { s with preview := some result }
        | none => s
      else s
  else s

/-- The upload page as rendered (lines 89-184): the success card, or the form with the
preview and the upload button. -/
inductive View where
  | successCard
  | form (preview : Option String) (uploadDisabled : Bool) (uploadLabel : String)
deriving DecidableEq

/-- The render function of `UploadPage` (lines 89-184). -/
def render (s : State) : View :=
  if s.uploaded then View.successCard
  else
    View.form s.preview (s.selectedFile.isNone || s.uploading)
      (if s.uploading then "Uploading..." else "Upload Car")

/-- One handler run of the upload page: a file chosen in the picker, files dropped on the
drop zone, or the upload button. -/
inductive Step : State → State → Prop where
  | select (s : State) (files : List File) (dataURL : Option String) :
      Step s (handleFileSelect s files dataURL)
  | drop (s : State) (files : List File) (dataURL : Option String) :
      Step s (handleDrop s files dataURL)
  | upload (s : State) (conversion : Except Unit String)
      (upload : Except AxiosError String) :
      Step s (handleUpload s conversion upload).1

/-- The states a mounted upload page can be in between handler runs. -/
inductive Reachable : State → Prop where
  | init : Reachable State.init
  | step {s t : State} : Reachable s → Step s t → Reachable t

end UploadPage

/-! ## The voting-and-ranking core

The service behind the three pages is not among the sources; its operations are modelled
from sections 3 and 4 of the specification. -/

namespace Core

/-- Modelled from the spec: the Submission record of section 3 (the backend that stores it
is missing from the sources). -/
structure Submission where
  id : Nat
  image : String
  hot_votes : Nat
  not_votes : Nat
  created_at : Nat
deriving DecidableEq

/-- Modelled from the spec: the derived field `total_votes = hot_votes + not_votes`
(section 3; the backend is missing from the sources). -/
def total_votes (s : Submission) : Nat := s.hot_votes + s.not_votes

/-- Modelled from the spec: the derived field `score`, `hot_votes / total_votes` if
`total_votes > 0`, else `0` (sections 3 and 4.4; the backend is missing from the
sources). -/
def score (s : Submission) : ℚ :=
  if total_votes s > 0 then (s.hot_votes : ℚ) / (total_votes s : ℚ) else 0

/-- Modelled from the spec: the error taxonomy of section 7 (the backend is missing from
the sources). -/
inductive Error where
  | NotFound
  | Empty
  | StorageError
deriving DecidableEq

/-- Modelled from the spec: the Submission Store of section 4.1, as the sequence `list()`
enumerates (the backend is missing from the sources). -/
abbrev Store := List Submission

/-- Modelled from the spec: `get(id)` of section 4.1, failing with `NotFound` if no
submission has that id (the backend is missing from the sources). -/
def get (store : Store) (id : Nat) : Except Error Submission :=
  match store.find? (fun s => s.id == id) with
  | some s => Except.ok s
  | none => Except.error Error.NotFound

/-- Modelled from the spec: the `field` argument of `increment`, one of `hot` and `not`
(section 4.1; the backend is missing from the sources). -/
inductive Field where
  | hot
  | not
deriving DecidableEq

/-- Modelled from the spec: adding 1 to the named counter of one submission (section 4.1;
the backend is missing from the sources). -/
def bump (field : Field) (s : Submission) : Submission :=
  match field with
  | Field.hot => { s with hot_votes := s.hot_votes + 1 }
  | Field.not => { s with not_votes := s.not_votes + 1 }

/-- Modelled from the spec: the store after incrementing the named counter of the
submission identified by `id`, or `none` if the id does not exist (section 4.1; the
backend is missing from the sources). -/
def incremented : Store → Nat → Field → Option Store
  | [], _, _ => none
  | s :: rest, id, field =>
    if s.id = id then some (bump field s :: rest)
    else (incremented rest id field).map (fun rest => s :: rest)

/-- Modelled from the spec: `increment(id, field)` of section 4.1 in state-passing form:
the store afterwards and the result (the backend is missing from the sources). -/
def increment (store : Store) (id : Nat) (field : Field) : Store × Except Error Unit :=
  match incremented store id field with
  | some store => (store, Except.ok ())
  | none => (store, Except.error Error.NotFound)

/-- Modelled from the spec: `record_vote(submission_id, is_hot)` of section 4.3: look the
submission up (`NotFound` if absent), then increment `hot_votes` if `is_hot` else
`not_votes` (the backend is missing from the sources). -/
def record_vote (store : Store) (submission_id : Nat) (is_hot : Bool) :
    Store × Except Error Unit :=
  match get store submission_id with
  | Except.error e => (store, Except.error e)
  | Except.ok _ => increment store submission_id (if is_hot then Field.hot else Field.not)

/-- Modelled from the spec: the ranking relation of section 4.4: higher score first,
at equal score more total votes first, at equal total votes the earlier `created_at`
first (the backend is missing from the sources). -/
def RanksBefore (a b : Submission) : Prop :=
  score a > score b ∨
    (score a = score b ∧
      (total_votes a > total_votes b ∨
        (total_votes a = total_votes b ∧ a.created_at ≤ b.created_at)))

instance RanksBefore.decidable : DecidableRel RanksBefore := fun a b => by
  unfold RanksBefore
  exact inferInstance

/-- Modelled from the spec: `leaderboard(limit)` of section 4.4: read all submissions,
sort them by the ranking relation, truncate to `limit` entries (the backend is missing
from the sources). -/
def leaderboard (store : Store) (limit : Nat) : List Submission :=
  (store.insertionSort RanksBefore).take limit

/-- No two submissions of the store agree on score, total votes and creation time. -/
def DistinctRankKeys (store : Store) : Prop :=
  ∀ a ∈ store, ∀ b ∈ store,
    score a = score b → total_votes a = total_votes b → a.created_at = b.created_at → a = b

end Core

end RateMyRide

/-! # Theorems -/

namespace RateMyRide

/-! ## Hot-score percentage -/

theorem log2Steps_spec : ∀ fuel n : Nat, 0 < n → n ≤ fuel →
    2 ^ log2Steps fuel n ≤ n ∧ n < 2 ^ (log2Steps fuel n + 1) := by
  intro fuel
  induction fuel with
  | zero => intro n h0 h; omega
  | succ fuel ih =>
    intro n h0 h
    by_cases h2 : 2 ≤ n
    · have hstep : log2Steps (fuel + 1) n = log2Steps fuel (n / 2) + 1 := by
        simp [log2Steps, h2]
      obtain ⟨i1, i2⟩ := ih (n / 2) (by omega) (by omega)
      rw [hstep]
      constructor
      · rw [pow_succ]; omega
      · rw [pow_succ]; omega
    · have hstep : log2Steps (fuel + 1) n = 0 := by simp [log2Steps, h2]
      rw [hstep]
      constructor <;> simp <;> omega

theorem floorLog2_spec {n : Nat} (h : 0 < n) :
    2 ^ floorLog2 n ≤ n ∧ n < 2 ^ (floorLog2 n + 1) :=
  log2Steps_spec n n h (le_refl n)

theorem abs_eq_natAbs_div_den (x : ℚ) : |x| = (x.num.natAbs : ℚ) / (x.den : ℚ) := by
  have h : x = (x.num : ℚ) / (x.den : ℚ) := (Rat.num_div_den x).symm
  have hden : (0 : ℚ) < (x.den : ℚ) := by exact_mod_cast x.den_pos
  conv_lhs => rw [h]
  rw [abs_div, abs_of_pos hden, Nat.cast_natAbs, Int.cast_abs]

/-- The binary exponent brackets a nonzero number between two powers of two. -/
theorem binade_spec {x : ℚ} (hx : x ≠ 0) :
    (2 : ℚ) ^ binade x ≤ |x| ∧ |x| < (2 : ℚ) ^ (binade x + 1) := by
  have ha : 0 < x.num.natAbs := Int.natAbs_pos.mpr (Rat.num_ne_zero.mpr hx)
  have hb : 0 < x.den := x.den_pos
  obtain ⟨a1, a2⟩ := floorLog2_spec ha
  obtain ⟨b1, b2⟩ := floorLog2_spec hb
  have a1' : (2 : ℚ) ^ floorLog2 x.num.natAbs ≤ (x.num.natAbs : ℚ) := by exact_mod_cast a1
  have b2' : (x.den : ℚ) < (2 : ℚ) ^ (floorLog2 x.den + 1) := by exact_mod_cast b2
  have hbpos : (0 : ℚ) < (x.den : ℚ) := by exact_mod_cast hb
  have habs := abs_eq_natAbs_div_den x
  have hlow : (2 : ℚ) ^ ((floorLog2 x.num.natAbs : Int) - (floorLog2 x.den : Int) - 1) < |x| := by
    have e : ((floorLog2 x.num.natAbs : Int) - (floorLog2 x.den : Int) - 1)
        = ((floorLog2 x.num.natAbs : ℕ) : Int) - ((floorLog2 x.den + 1 : ℕ) : Int) := by
      push_cast; ring
    rw [e, zpow_sub₀ (two_ne_zero), zpow_natCast, zpow_natCast, habs,
      div_lt_div_iff₀ (by positivity) hbpos]
    calc (2 : ℚ) ^ floorLog2 x.num.natAbs * (x.den : ℚ)
        < (2 : ℚ) ^ floorLog2 x.num.natAbs * (2 : ℚ) ^ (floorLog2 x.den + 1) :=
          mul_lt_mul_of_pos_left b2' (by positivity)
      _ ≤ (x.num.natAbs : ℚ) * (2 : ℚ) ^ (floorLog2 x.den + 1) :=
          mul_le_mul_of_nonneg_right a1' (by positivity)
  have a2' : (x.num.natAbs : ℚ) < (2 : ℚ) ^ (floorLog2 x.num.natAbs + 1) := by exact_mod_cast a2
  have b1' : (2 : ℚ) ^ floorLog2 x.den ≤ (x.den : ℚ) := by exact_mod_cast b1
  have hhigh : |x| < (2 : ℚ) ^ ((floorLog2 x.num.natAbs : Int) - (floorLog2 x.den : Int) + 1) := by
    have e : ((floorLog2 x.num.natAbs : Int) - (floorLog2 x.den : Int) + 1)
        = ((floorLog2 x.num.natAbs + 1 : ℕ) : Int) - ((floorLog2 x.den : ℕ) : Int) := by
      push_cast; ring
    rw [e, zpow_sub₀ (two_ne_zero), zpow_natCast, zpow_natCast, habs,
      div_lt_div_iff₀ hbpos (by positivity)]
    calc (x.num.natAbs : ℚ) * (2 : ℚ) ^ floorLog2 x.den
        < (2 : ℚ) ^ (floorLog2 x.num.natAbs + 1) * (2 : ℚ) ^ floorLog2 x.den :=
          mul_lt_mul_of_pos_right a2' (by positivity)
      _ ≤ (2 : ℚ) ^ (floorLog2 x.num.natAbs + 1) * (x.den : ℚ) :=
          mul_le_mul_of_nonneg_left b1' (by positivity)
  unfold binade
  simp only
  split
  · rename_i h
    exact ⟨h, hhigh⟩
  · rename_i h
    refine ⟨le_of_lt hlow, ?_⟩
    rw [sub_add_cancel]
    exact not_le.mp h

theorem binade_le {x : ℚ} {k : Int} (hk : -1 ≤ k) (h : |x| < (2 : ℚ) ^ (k + 1)) :
    binade x ≤ k := by
  by_cases hx : x = 0
  · subst hx
    have : binade 0 = -1 := by rfl
    rw [this]
    exact hk
  · have h1 := (binade_spec hx).1.trans_lt h
    have := (zpow_lt_zpow_iff_right₀ (by norm_num : (1 : ℚ) < 2)).mp h1
    omega

theorem quantum_pos (x : ℚ) : 0 < quantum x := by
  unfold quantum
  positivity

theorem quantum_le {x : ℚ} {k : Int} (hk : -1 ≤ k) (h : |x| < (2 : ℚ) ^ (k + 1)) :
    quantum x ≤ (2 : ℚ) ^ (k - 52) := by
  unfold quantum
  apply zpow_le_zpow_right₀ (by norm_num)
  have := binade_le hk h
  omega

theorem roundHalfEven_le {r : ℚ} {N : Int} (h : r ≤ N) : roundHalfEven r ≤ N := by
  have hf : (⌊r⌋ : ℚ) ≤ r := Int.floor_le r
  have hfN : ⌊r⌋ ≤ N := by exact_mod_cast hf.trans h
  unfold roundHalfEven
  split_ifs with h1 h2 h3
  · exact hfN
  · have : (⌊r⌋ : ℚ) < N := by linarith
    have : ⌊r⌋ < N := by exact_mod_cast this
    omega
  · exact hfN
  · have : (⌊r⌋ : ℚ) < N := by linarith
    have : ⌊r⌋ < N := by exact_mod_cast this
    omega

theorem roundHalfEven_ge {r : ℚ} {N : Int} (h : (N : ℚ) ≤ r) : N ≤ roundHalfEven r := by
  have hfN : N ≤ ⌊r⌋ := Int.le_floor.mpr h
  unfold roundHalfEven
  split_ifs <;> omega

theorem roundHalfEven_near (r : ℚ) : |(roundHalfEven r : ℚ) - r| ≤ 1 / 2 := by
  have hf : (⌊r⌋ : ℚ) ≤ r := Int.floor_le r
  have hlt : r < ⌊r⌋ + 1 := Int.lt_floor_add_one r
  unfold roundHalfEven
  rw [abs_le]
  split_ifs with h1 h2 h3 <;> push_cast <;> constructor <;> linarith

theorem roundToDouble_of_le (x : ℚ) (b : ℕ) (hb : (b : ℚ) < 2 ^ 53) (h0 : 0 ≤ x)
    (hx : x ≤ b) :
    ∃ y, roundToDouble x = Number.finite y ∧ 0 ≤ y ∧ y ≤ b ∧ |y - x| ≤ quantum x / 2 := by
  have hq : 0 < quantum x := quantum_pos x
  have hbin : binade x ≤ 52 := by
    apply binade_le (by norm_num)
    rw [abs_of_nonneg h0]
    exact lt_of_le_of_lt hx (by norm_num at hb ⊢; exact hb)
  have hm : max (binade x) (-1022) - 52 ≤ 0 := by omega
  have hinv : (quantum x)⁻¹ = (2 : ℚ) ^ (-(max (binade x) (-1022) - 52)).toNat := by
    unfold quantum
    rw [← zpow_neg, ← zpow_natCast, Int.toNat_of_nonneg (by omega)]
  have hN : ((b * 2 ^ (-(max (binade x) (-1022) - 52)).toNat : ℕ) : ℤ) = ((b : ℚ) / quantum x) := by
    rw [div_eq_mul_inv, hinv]
    push_cast
    ring
  have hr : x / quantum x ≤ (((b * 2 ^ (-(max (binade x) (-1022) - 52)).toNat : ℕ) : ℤ) : ℚ) := by
    rw [hN]
    exact div_le_div_of_nonneg_right hx hq.le
  have hr0 : ((0 : ℤ) : ℚ) ≤ x / quantum x := by
    simp only [Int.cast_zero]
    exact div_nonneg h0 hq.le
  have hup := roundHalfEven_le hr
  have hlo := roundHalfEven_ge hr0
  have hnear := roundHalfEven_near (x / quantum x)
  have hy0 : (0 : ℚ) ≤ (roundHalfEven (x / quantum x) : ℚ) * quantum x :=
    mul_nonneg (by exact_mod_cast hlo) hq.le
  have hyb : (roundHalfEven (x / quantum x) : ℚ) * quantum x ≤ b := by
    have h1 : (roundHalfEven (x / quantum x) : ℚ) ≤ (b : ℚ) / quantum x := by
      rw [← hN]
      exact_mod_cast hup
    calc (roundHalfEven (x / quantum x) : ℚ) * quantum x
        ≤ (b : ℚ) / quantum x * quantum x := mul_le_mul_of_nonneg_right h1 hq.le
      _ = b := div_mul_cancel₀ _ hq.ne'
  refine ⟨(roundHalfEven (x / quantum x) : ℚ) * quantum x, ?_, hy0, hyb, ?_⟩
  · unfold roundToDouble
    simp only
    rw [if_neg, if_neg]
    · have : (0 : ℚ) < 2 ^ 1024 := by positivity
      linarith
    · have : (2 : ℚ) ^ 53 ≤ 2 ^ 1024 := pow_le_pow_right₀ (by norm_num) (by norm_num)
      linarith
  · have e : (roundHalfEven (x / quantum x) : ℚ) * quantum x - x
        = ((roundHalfEven (x / quantum x) : ℚ) - x / quantum x) * quantum x := by
      field_simp
    rw [e, abs_mul, abs_of_pos hq]
    calc |(roundHalfEven (x / quantum x) : ℚ) - x / quantum x| * quantum x
        ≤ 1 / 2 * quantum x := mul_le_mul_of_nonneg_right hnear hq.le
      _ = quantum x / 2 := by ring

/-- For a score in `[0, 1]` the percentage is an integer in `[0, 100]` within the rounding
error of the two double operations of the nearest integer to `score * 100`. -/
theorem percent_of_unit (s : ℚ) (h0 : 0 ≤ s) (h1 : s ≤ 1) :
    ∃ n : ℤ, Math.round (roundToDouble s).times100 = Number.finite n ∧ 0 ≤ n ∧ n ≤ 100 ∧
      |(n : ℚ) - s * 100| ≤ 1 / 2 + 1 / 2 ^ 45 := by
  obtain ⟨d, hd, d0, d1, derr⟩ := roundToDouble_of_le s 1 (by norm_num) h0 (by simpa using h1)
  have d1' : d ≤ 1 := by simpa using d1
  obtain ⟨p, hp, p0, p1, perr⟩ := roundToDouble_of_le (d * 100) 100 (by norm_num)
    (by positivity) (by push_cast; linarith)
  have p1' : p ≤ 100 := by simpa using p1
  have qs : quantum s ≤ 1 / 2 ^ 52 := by
    have := quantum_le (x := s) (k := 0) (by norm_num)
      (by rw [abs_of_nonneg h0]; norm_num; linarith)
    norm_num at this ⊢
    exact this
  have qp : quantum (d * 100) ≤ 1 / 2 ^ 46 := by
    have := quantum_le (x := d * 100) (k := 6) (by norm_num)
      (by rw [abs_of_nonneg (by positivity)]; norm_num; linarith)
    norm_num at this ⊢
    exact this
  refine ⟨⌊p + 1 / 2⌋, ?_, Int.floor_nonneg.mpr (by linarith), ?_, ?_⟩
  · rw [hd]
    simp only [Number.times100, hp, Math.round]
  · have : ⌊p + 1 / 2⌋ < 101 := by
      rw [Int.floor_lt]
      push_cast
      linarith
    omega
  · have f1 : (⌊p + 1 / 2⌋ : ℚ) ≤ p + 1 / 2 := Int.floor_le _
    have f2 : p + 1 / 2 < ⌊p + 1 / 2⌋ + 1 := Int.lt_floor_add_one _
    rw [abs_le] at derr perr ⊢
    norm_num at qs qp ⊢
    constructor <;> linarith

theorem Math.round_finite_iff (q : ℚ) (n : ℤ) :
    Math.round (Number.finite q) = Number.finite n ↔ (n : ℚ) ≤ q + 1 / 2 ∧ q + 1 / 2 < n + 1 := by
  simp only [Math.round, Number.finite.injEq, Int.cast_inj]
  exact Int.floor_eq_iff

/-- A finite result of `roundToDouble` is a multiple of the spacing with a significand of
at most 53 bits, and no further from the argument than half the spacing. -/
theorem roundToDouble_nearest {x y : ℚ} (h : roundToDouble x = Number.finite y) :
    ∃ m : ℤ, y = m * quantum x ∧ |m| ≤ 2 ^ 53 ∧ |y - x| ≤ quantum x / 2 := by
  have hq : 0 < quantum x := quantum_pos x
  have hy : y = (roundHalfEven (x / quantum x) : ℚ) * quantum x := by
    unfold roundToDouble at h
    simp only at h
    split at h
    · cases h
    · split at h
      · cases h
      · exact (Number.finite.inj h).symm
  have hnear := roundHalfEven_near (x / quantum x)
  have hsig : |x / quantum x| ≤ 2 ^ 53 := by
    rw [abs_div, abs_of_pos hq, div_le_iff₀ hq]
    by_cases hx : x = 0
    · subst hx
      simp only [abs_zero]
      positivity
    · have h2 := (binade_spec hx).2
      have hle : (2 : ℚ) ^ (binade x + 1) ≤ 2 ^ 53 * quantum x := by
        unfold quantum
        rw [show ((2 : ℚ) ^ 53) = (2 : ℚ) ^ (53 : ℤ) by norm_num, ← zpow_add₀ (two_ne_zero)]
        apply zpow_le_zpow_right₀ (by norm_num)
        omega
      exact le_of_lt (lt_of_lt_of_le h2 hle)
  rw [abs_le] at hsig
  refine ⟨roundHalfEven (x / quantum x), hy, ?_, ?_⟩
  · rw [abs_le]
    constructor
    · exact roundHalfEven_ge (by push_cast; exact hsig.1)
    · exact roundHalfEven_le (by push_cast; exact hsig.2)
  · have e : y - x = ((roundHalfEven (x / quantum x) : ℚ) - x / quantum x) * quantum x := by
      rw [hy]
      field_simp
    rw [e, abs_mul, abs_of_pos hq]
    calc |(roundHalfEven (x / quantum x) : ℚ) - x / quantum x| * quantum x
        ≤ 1 / 2 * quantum x := mul_le_mul_of_nonneg_right hnear hq.le
      _ = quantum x / 2 := by ring

/-- C1: the displayed hot-score percentage is 0 when `total_votes = 0`, whatever the score
field holds, and `Math.round (score * 100)`, computed on doubles, when `total_votes > 0`;
for `0 ≤ score ≤ 1` it is an integer in `[0, 100]`, and when votes exist it is within
`1/2 + 2 ^ (-45)` of `score * 100`; the voting stats, the top-3 card and the ranking row
show the same value. `Math.round` yields the integer `n` with `n ≤ x + 1/2 < n + 1`, and
the double operations yield a nearest double. -/
theorem hotScore_display (car : Car) :
    (car.total_votes = 0 → VotingPage.hotScore car = Number.finite 0) ∧
    (car.total_votes > 0 →
      VotingPage.hotScore car = Math.round (roundToDouble car.score).times100) ∧
    (0 ≤ car.score → car.score ≤ 1 →
      ∃ n : ℤ, VotingPage.hotScore car = Number.finite n ∧ 0 ≤ n ∧ n ≤ 100) ∧
    (car.total_votes > 0 → 0 ≤ car.score → car.score ≤ 1 →
      ∃ n : ℤ, VotingPage.hotScore car = Number.finite n ∧
        |(n : ℚ) - car.score * 100| ≤ 1 / 2 + 1 / 2 ^ 45) ∧
    LeaderboardPage.showcaseHotScore car = VotingPage.hotScore car ∧
    LeaderboardPage.rankingHotScore car = VotingPage.hotScore car ∧
    (∀ index, (LeaderboardPage.showcaseCard index car).hotScorePercent
      = VotingPage.hotScore car) ∧
    (∀ index, (LeaderboardPage.rankingRow index car).hotScorePercent
      = VotingPage.hotScore car) ∧
    (∀ s : VotingPage.State, s.currentCar = some car → s.loading = false →
      truthy s.error = false →
      (VotingPage.render s).main =
        VotingPage.MainView.carView car.photo (VotingPage.voteButtons s) car.hot_votes
          car.not_votes (VotingPage.hotScore car) s.voted false) ∧
    (∀ (q : ℚ) (n : ℤ), Math.round (Number.finite q) = Number.finite n ↔
      (n : ℚ) ≤ q + 1 / 2 ∧ q + 1 / 2 < n + 1) ∧
    Math.round Number.infinity = Number.infinity ∧
    Math.round Number.negInfinity = Number.negInfinity ∧
    (∀ x y : ℚ, roundToDouble x = Number.finite y →
      ∃ m : ℤ, y = m * quantum x ∧ |m| ≤ 2 ^ 53 ∧ |y - x| ≤ quantum x / 2) ∧
    (∀ x : ℚ, x ≠ 0 → (2 : ℚ) ^ binade x ≤ |x| ∧ |x| < (2 : ℚ) ^ (binade x + 1)) := by
  refine ⟨?_, ?_, ?_, ?_, rfl, rfl, fun _ => rfl, fun _ => rfl, ?_, Math.round_finite_iff,
    rfl, rfl, fun _ _ h => roundToDouble_nearest h, fun _ hx => binade_spec hx⟩
  · intro h
    simp [VotingPage.hotScore, h]
  · intro h
    simp [VotingPage.hotScore, h]
  · intro h0 h1
    unfold VotingPage.hotScore
    split
    · obtain ⟨n, hn, n0, n1, -⟩ := percent_of_unit car.score h0 h1
      exact ⟨n, hn, n0, n1⟩
    · exact ⟨0, by simp, le_refl _, by norm_num⟩
  · intro hv h0 h1
    obtain ⟨n, hn, -, -, herr⟩ := percent_of_unit car.score h0 h1
    exact ⟨n, by simp [VotingPage.hotScore, hv, hn], herr⟩
  · intro s hcar hl he
    simp [VotingPage.render, hcar, hl, he]

/-- C1 at concrete records: 23 hot votes of 40 (score 0.575) show 57, because the double
product is 57.49999999999999; the double nearest 0.015 shows 2, because its product
rounds to 1.5; 2 of 3 show 67; 1 of 1 shows 100; an unvoted record whose score field holds
5 shows 0; and a score of 1e400 with votes shows `Infinity`. -/
theorem hotScore_display_witness :
    VotingPage.hotScore
        { id := "a", photo := "p", hot_votes := 23, not_votes := 17, total_votes := 40,
          score := 0.575 } = Number.finite 57 ∧
      VotingPage.hotScore
        { id := "b", photo := "p", hot_votes := 3, not_votes := 197, total_votes := 200,
          score := 1080863910568919 / 72057594037927936 } = Number.finite 2 ∧
      VotingPage.hotScore
        { id := "c", photo := "p", hot_votes := 2, not_votes := 1, total_votes := 3,
          score := 2 / 3 } = Number.finite 67 ∧
      VotingPage.hotScore
        { id := "d", photo := "p", hot_votes := 1, not_votes := 0, total_votes := 1,
          score := 1 } = Number.finite 100 ∧
      VotingPage.hotScore
        { id := "e", photo := "q", hot_votes := 0, not_votes := 0, total_votes := 0,
          score := 5 } = Number.finite 0 ∧
      VotingPage.hotScore
        { id := "f", photo := "q", hot_votes := 1, not_votes := 0, total_votes := 1,
          score := 1e400 } = Number.infinity := by
  refine ⟨?_, ?_, ?_, ?_, ?_, ?_⟩
  · rw [(hotScore_display _).2.1 (by decide)]
    decide!
  · rw [(hotScore_display _).2.1 (by decide)]
    decide!
  · rw [(hotScore_display _).2.1 (by decide)]
    decide!
  · rw [(hotScore_display _).2.1 (by decide)]
    decide!
  · exact (hotScore_display _).1 rfl
  · rw [(hotScore_display _).2.1 (by decide)]
    decide!

/-! ## Voting page -/

namespace VotingPage

/-- C2: with a current car and no vote in flight, `handleVote isHot` issues exactly one
request, the vote request carrying the id of the current car (the car the page displays)
and `is_hot = isHot`; the HOT button invokes `handleVote true` and the NOT button
`handleVote false`. -/
theorem handleVote_request (s : State) (car : Car) (isHot : Bool)
    (outcome : Except AxiosError Unit) (hcar : s.currentCar = some car)
    (hvoting : s.voting = false) :
    (handleVote s isHot outcome).2.filter Effect.isRequest
        = [Effect.post "/cars/vote" { car_id := car.id, is_hot := isHot }] ∧
      voteRequests (handleVote s isHot outcome).2 = [{ car_id := car.id, is_hot := isHot }] ∧
      (voteButtons s).map (fun b => (b.label, b.onClick))
        = [("HOT", Action.handleVote true), ("NOT", Action.handleVote false)] ∧
      (s.loading = false → truthy s.error = false →
        (render s).main = MainView.carView car.photo (voteButtons s) car.hot_votes
          car.not_votes (hotScore car) s.voted false) := by
  refine ⟨?_, ?_, rfl, ?_⟩
  · cases outcome <;> simp [handleVote, hcar, hvoting, Effect.isRequest]
  · cases outcome <;> simp [handleVote, hcar, hvoting, voteRequests]
  · intro hl he
    simp [render, hcar, hl, he]

/-- C2 at a concrete state: a NOT vote on car `c7` that the server accepts. -/
theorem handleVote_request_witness :
    voteRequests
        (handleVote
          { currentCar := some { id := "c7", photo := "p", hot_votes := 1, not_votes := 0,
                                 total_votes := 1, score := 1 },
            loading := false, voting := false, voted := false, error := none,
            votesCount := 0 }
          false (Except.ok ())).2
      = [{ car_id := "c7", is_hot := false }] :=
  (handleVote_request _ _ false (Except.ok ()) rfl rfl).2.1

/-- C3: when there is no current car or a vote is already in flight, `handleVote` issues
no request, performs no other effect and leaves every state cell as it was. -/
theorem handleVote_guard (s : State) (isHot : Bool) (outcome : Except AxiosError Unit)
    (h : s.currentCar = none ∨ s.voting = true) :
    (handleVote s isHot outcome).2 = [] ∧
      voteRequests (handleVote s isHot outcome).2 = [] ∧
      (handleVote s isHot outcome).1 = s ∧
      (handleVote s isHot outcome).1.voting = s.voting ∧
      (handleVote s isHot outcome).1.voted = s.voted ∧
      (handleVote s isHot outcome).1.votesCount = s.votesCount ∧
      (handleVote s isHot outcome).1.currentCar = s.currentCar ∧
      (handleVote s isHot outcome).1.error = s.error ∧
      (handleVote s isHot outcome).1.loading = s.loading := by
  have key : handleVote s isHot outcome = (s, []) := by
    unfold handleVote
    rcases h with h | h
    · simp [h]
    · cases hc : s.currentCar <;> simp [h]
  simp [key, voteRequests]

/-- C3 at a concrete state: a second click while the first vote is in flight. -/
theorem handleVote_guard_witness :
    (handleVote
        { currentCar := some { id := "c7", photo := "p", hot_votes := 1, not_votes := 0,
                               total_votes := 1, score := 1 },
          loading := false, voting := true, voted := false, error := none,
          votesCount := 0 }
        true (Except.ok ())).2 = [] :=
  (handleVote_guard _ true (Except.ok ()) (Or.inr rfl)).1

/-- Between handler runs, `voted` is set only while `voting` is set. -/
theorem Reachable.voted_imp_voting {s : State} (h : Reachable s) :
    s.voted = true → s.voting = true := by
  induction h with
  | init => intro h; cases h
  | @step s t _ hstep ih =>
    cases hstep with
    | fetch outcome =>
      cases outcome with
      | ok data => intro h; simp [fetchRandomCar] at h
      | error e =>
        have hvoted : (fetchRandomCar s (Except.error e)).1.voted = s.voted := by
          simp only [fetchRandomCar]
          split <;> rfl
        have hvoting : (fetchRandomCar s (Except.error e)).1.voting = s.voting := by
          simp only [fetchRandomCar]
          split <;> rfl
        rw [hvoted, hvoting]
        exact ih
    | vote isHot outcome =>
      intro h
      unfold handleVote at h ⊢
      cases hc : s.currentCar with
      | none => simp only [hc] at h ⊢; exact ih h
      | some car =>
        simp only [hc] at h ⊢
        cases hv : s.voting with
        | true => simp only [hv, if_true] at h ⊢
        | false =>
          cases outcome with
          | ok a => simp
          | error e =>
            simp [hv] at h
            have := ih h
            simp [hv] at this

/-- C4: for a `handleVote` call that issues a request (a current car, no vote in flight,
on a mounted page), `voted` was false; `voted` becomes true if and only if the request
succeeds and `votesCount` grows by exactly 1 if and only if it succeeds; on failure
`voted` stays false, `votesCount` is unchanged, `voting` is back to false, the user is
alerted and a further `handleVote` sends a vote for the same car again; `currentCar` is
unchanged either way, and the header shows `votesCount`. -/
theorem handleVote_outcome (s : State) (car : Car) (isHot : Bool)
    (outcome : Except AxiosError Unit) (hr : Reachable s) (hcar : s.currentCar = some car)
    (hvoting : s.voting = false) :
    s.voted = false ∧
      ((handleVote s isHot outcome).1.voted = true ↔ outcome.isOk = true) ∧
      ((handleVote s isHot outcome).1.votesCount = s.votesCount + 1 ↔ outcome.isOk = true) ∧
      (outcome.isOk = false →
        (handleVote s isHot outcome).1.voted = false ∧
        (handleVote s isHot outcome).1.votesCount = s.votesCount ∧
        (handleVote s isHot outcome).1.voting = false ∧
        Effect.alert "Failed to record vote. Please try again."
          ∈ (handleVote s isHot outcome).2 ∧
        ∀ again retry,
          voteRequests (handleVote (handleVote s isHot outcome).1 again retry).2
            = [{ car_id := car.id, is_hot := again }]) ∧
      (handleVote s isHot outcome).1.currentCar = s.currentCar ∧
      (render (handleVote s isHot outcome).1).votesCast
        = "Votes cast: " ++ toString (handleVote s isHot outcome).1.votesCount := by
  have hvoted : s.voted = false := by
    cases hv : s.voted with
    | false => rfl
    | true => have := hr.voted_imp_voting hv; simp [hvoting] at this
  refine ⟨hvoted, ?_, ?_, ?_, ?_, rfl⟩
  · cases outcome <;> simp [handleVote, hcar, hvoting, hvoted, Except.isOk, Except.toBool]
  · cases outcome <;> simp [handleVote, hcar, hvoting, Except.isOk, Except.toBool]
  · cases outcome with
    | ok a => simp [Except.isOk, Except.toBool]
    | error e =>
      intro _
      refine ⟨by simp [handleVote, hcar, hvoting, hvoted], by simp [handleVote, hcar, hvoting],
        by simp [handleVote, hcar, hvoting], by simp [handleVote, hcar, hvoting], ?_⟩
      intro again retry
      cases retry <;> simp [handleVote, hcar, hvoting, voteRequests]
  · cases outcome <;> simp [handleVote, hcar, hvoting]

/-- The state of a mounted page after the first car has loaded. -/
theorem reachable_firstCar (car : Car) :
    Reachable { currentCar := some car, loading := false, voting := false, voted := false,
                error := none, votesCount := 0 } :=
  Reachable.step Reachable.init (Step.fetch State.init (Except.ok car))

/-- C4 at a concrete state: a failed vote on the first car leaves `voted` false and the
count at 0. -/
theorem handleVote_outcome_witness :
    (handleVote
        { currentCar := some { id := "c7", photo := "p", hot_votes := 1, not_votes := 0,
                               total_votes := 1, score := 1 },
          loading := false, voting := false, voted := false, error := none,
          votesCount := 0 }
        true (Except.error { responseStatus := some 500 })).1.voted = false ∧
    (handleVote
        { currentCar := some { id := "c7", photo := "p", hot_votes := 1, not_votes := 0,
                               total_votes := 1, score := 1 },
          loading := false, voting := false, voted := false, error := none,
          votesCount := 0 }
        true (Except.error { responseStatus := some 500 })).1.votesCount = 0 :=
  let h := (handleVote_outcome _ _ true (Except.error { responseStatus := some 500 })
    (reachable_firstCar _) rfl rfl).2.2.2.1 rfl
  ⟨h.1, h.2.1⟩

/-- C5: `fetchRandomCar` stores the "No cars available yet" message exactly for a failure
with status 404 and the different "Failed to load cars" message for every other failure;
a failure leaves `currentCar` and `voted` as they were; a success stores the car, clears
`voted` and leaves `error` null; `loading` ends false in every case. -/
theorem fetchRandomCar_outcome (s : State) (outcome : Except AxiosError Car) :
    (∀ e, outcome = Except.error e → e.responseStatus = some 404 →
      (fetchRandomCar s outcome).1.error
        = some "No cars available yet. Be the first to upload one!") ∧
    (∀ e, outcome = Except.error e → e.responseStatus ≠ some 404 →
      (fetchRandomCar s outcome).1.error = some "Failed to load cars. Please try again.") ∧
    "No cars available yet. Be the first to upload one!"
      ≠ "Failed to load cars. Please try again." ∧
    (∀ e, outcome = Except.error e →
      (fetchRandomCar s outcome).1.currentCar = s.currentCar ∧
      (fetchRandomCar s outcome).1.voted = s.voted) ∧
    (∀ data, outcome = Except.ok data →
      (fetchRandomCar s outcome).1.currentCar = some data ∧
      (fetchRandomCar s outcome).1.voted = false ∧
      (fetchRandomCar s outcome).1.error = none) ∧
    (fetchRandomCar s outcome).1.loading = false := by
  refine ⟨?_, ?_, by decide, ?_, ?_, ?_⟩
  · rintro e rfl he
    simp [fetchRandomCar, he]
  · rintro e rfl he
    simp [fetchRandomCar, he]
  · rintro e rfl
    simp only [fetchRandomCar]
    split <;> exact ⟨rfl, rfl⟩
  · rintro data rfl
    exact ⟨rfl, rfl, rfl⟩
  · cases outcome with
    | ok data => rfl
    | error e => simp only [fetchRandomCar]

/-- C5 at concrete failures: an empty store (404), a server error (500) and no response. -/
theorem fetchRandomCar_outcome_witness :
    (fetchRandomCar State.init (Except.error { responseStatus := some 404 })).1.error
        = some "No cars available yet. Be the first to upload one!" ∧
      (fetchRandomCar State.init (Except.error { responseStatus := some 500 })).1.error
        = some "Failed to load cars. Please try again." ∧
      (fetchRandomCar State.init (Except.error { responseStatus := none })).1.error
        = some "Failed to load cars. Please try again." :=
  ⟨(fetchRandomCar_outcome _ _).1 _ rfl rfl,
   (fetchRandomCar_outcome _ _).2.1 _ rfl (by decide),
   (fetchRandomCar_outcome _ _).2.1 _ rfl (by decide)⟩

end VotingPage

/-! ## Leaderboard page -/

namespace LeaderboardPage

theorem fullRanking_getElem? (L : List Car) (i : Nat) :
    (fullRanking L)[i]? = (L[i]?).map (rankingRow i) := by
  simp [fullRanking]

theorem showcase_of_ne_nil {L : List Car} (h : L ≠ []) :
    showcase L = some ((L.take 3).mapIdx showcaseCard) := by
  cases L with
  | nil => exact absurd rfl h
  | cons a l => simp [showcase, topThree]

/-- C6: the page requests `limit=20`, stores the response list as it is, and renders it in
the order received: the full ranking has one row per entry, the row at index `i` shows
entry `i` with rank `i + 1`, and the top-3 showcase is the prefix of length
`min 3 |L|`, its card at index `i` showing entry `i`. -/
theorem ranking_preserves_order (s : State) (L : List Car) :
    (∀ outcome, (fetchLeaderboard s outcome).2.head?
      = some (Effect.get "/cars/leaderboard?limit=20")) ∧
    (fetchLeaderboard s (Except.ok L)).1.leaderboard = L ∧
    render (fetchLeaderboard s (Except.ok L)).1
      = (if L.length = 0 then View.emptyCard else View.list (showcase L) (fullRanking L)) ∧
    (fullRanking L).length = L.length ∧
    (∀ i, (fullRanking L)[i]? = (L[i]?).map (rankingRow i)) ∧
    (fullRanking L).map
        (fun r => (r.key, r.photo, r.hot_votes, r.not_votes, r.total_votes))
      = L.map (fun c => (c.id, c.photo, c.hot_votes, c.not_votes, c.total_votes)) ∧
    (∀ i car, (rankingRow i car).badge.text = "#" ++ toString (i + 1) ∧
      (rankingRow i car).alt = "Car #" ++ toString (i + 1)) ∧
    topThree L = L.take 3 ∧
    topThree L <+: L ∧
    (topThree L).length = min 3 L.length ∧
    (L ≠ [] → showcase L = some ((topThree L).mapIdx showcaseCard)) ∧
    (∀ i, ((topThree L).mapIdx showcaseCard)[i]? = ((L.take 3)[i]?).map (showcaseCard i)) ∧
    (∀ i car, (showcaseCard i car).key = car.id ∧ (showcaseCard i car).photo = car.photo ∧
      (showcaseCard i car).icon = getRankIcon (i + 1)) := by
  refine ⟨?_, rfl, ?_, ?_, fullRanking_getElem? L, ?_, ?_, rfl, List.take_prefix 3 L, ?_,
    ?_, ?_, fun _ _ => ⟨rfl, rfl, rfl⟩⟩
  · intro outcome
    cases outcome <;> rfl
  · simp [render, fetchLeaderboard, truthy]
  · simp [fullRanking]
  · apply List.ext_getElem?
    intro i
    simp only [List.getElem?_map, fullRanking_getElem?]
    cases L[i]? <;> rfl
  · intro i car
    constructor
    · simp only [rankingRow, getRankBadge]
      split <;> rfl
    · rfl
  · simp [topThree]
  · intro h
    exact showcase_of_ne_nil h
  · intro i
    simp [topThree]

/-- C6 at a concrete response of four cars: four rows in the order received. -/
theorem ranking_preserves_order_witness :
    (fullRanking
        [{ id := "a", photo := "pa", hot_votes := 0, not_votes := 1, total_votes := 1,
           score := 0 },
         { id := "b", photo := "pb", hot_votes := 1, not_votes := 0, total_votes := 1,
           score := 1 },
         { id := "a", photo := "pa", hot_votes := 0, not_votes := 1, total_votes := 1,
           score := 0 },
         { id := "d", photo := "pd", hot_votes := 0, not_votes := 0, total_votes := 0,
           score := 0 }]).map
      (fun r => (r.key, r.photo, r.hot_votes, r.not_votes, r.total_votes))
    = [("a", "pa", 0, 1, 1), ("b", "pb", 1, 0, 1), ("a", "pa", 0, 1, 1),
       ("d", "pd", 0, 0, 0)] :=
  (ranking_preserves_order State.init _).2.2.2.2.2.1

theorem Reachable.error_eq {s : State} (h : Reachable s) :
    s.error = none ∨ s.error = some failedMessage := by
  induction h with
  | init => exact Or.inl rfl
  | write _ hw ih =>
    cases hw with
    | setLoading b => exact ih
    | setErrorNull => exact Or.inl rfl
    | setErrorFailed => exact Or.inr rfl
    | setLeaderboard data => exact ih

theorem Reachable.truthy_error {s : State} (h : Reachable s) :
    truthy s.error = true ↔ s.error ≠ none := by
  rcases h.error_eq with h | h <;> rw [h] <;> simp [truthy, failedMessage]

theorem Reachable.after_fetch {s : State} (h : Reachable s)
    (outcome : Except AxiosError (List Car)) :
    Reachable (fetchLeaderboard s outcome).1 := by
  have h1 := Reachable.write h (Write.setLoading s true)
  have h2 := Reachable.write h1 (Write.setErrorNull _)
  cases outcome with
  | ok data =>
    exact Reachable.write (Reachable.write h2 (Write.setLeaderboard _ data))
      (Write.setLoading _ false)
  | error e =>
    exact Reachable.write (Reachable.write h2 (Write.setErrorFailed _))
      (Write.setLoading _ false)

/-- C10: after `fetchLeaderboard`, `loading` is false; on success `leaderboard` is the
response and `error` is null, on failure `error` is set and `leaderboard` is unchanged.
The page shows one of four views, chosen in the order loading, error, empty, list; the
empty view is shown exactly when `loading` is false, `error` is null and the list has
length 0, so an empty response is rendered as the empty view and not as an error. -/
theorem fetchLeaderboard_views (s : State) (outcome : Except AxiosError (List Car))
    (hr : Reachable s) :
    (fetchLeaderboard s outcome).1.loading = false ∧
    (∀ data, outcome = Except.ok data →
      (fetchLeaderboard s outcome).1.leaderboard = data ∧
      (fetchLeaderboard s outcome).1.error = none) ∧
    (∀ e, outcome = Except.error e →
      (fetchLeaderboard s outcome).1.error = some failedMessage ∧
      (fetchLeaderboard s outcome).1.leaderboard = s.leaderboard) ∧
    Reachable (fetchLeaderboard s outcome).1 ∧
    (s.loading = true → render s = View.loadingCard) ∧
    (s.loading = false → s.error ≠ none → render s = View.errorCard s.error) ∧
    (s.loading = false → s.error = none → s.leaderboard.length = 0 →
      render s = View.emptyCard) ∧
    (s.loading = false → s.error = none → s.leaderboard.length ≠ 0 →
      render s = View.list (showcase s.leaderboard) (fullRanking s.leaderboard)) ∧
    (render s = View.emptyCard ↔
      s.loading = false ∧ s.error = none ∧ s.leaderboard.length = 0) ∧
    render (fetchLeaderboard s (Except.ok [])).1 = View.emptyCard := by
  have ht := hr.truthy_error
  refine ⟨?_, ?_, ?_, hr.after_fetch outcome, ?_, ?_, ?_, ?_, ?_, ?_⟩
  · cases outcome <;> rfl
  · rintro data rfl
    exact ⟨rfl, rfl⟩
  · rintro e rfl
    exact ⟨rfl, rfl⟩
  · intro hl
    simp [render, hl]
  · intro hl he
    simp [render, hl, ht.mpr he]
  · intro hl he hlen
    simp [render, hl, he, truthy, hlen]
  · intro hl he hlen
    simp [render, hl, he, truthy, hlen]
  · constructor
    · intro h
      unfold render at h
      split at h
      · cases h
      · split at h
        · cases h
        · split at h
          · rename_i h1 h2 h3
            refine ⟨by simpa using h1, ?_, h3⟩
            by_contra hne
            exact h2 (ht.mpr hne)
          · cases h
    · rintro ⟨hl, he, hlen⟩
      simp [render, hl, he, truthy, hlen]
  · simp [render, fetchLeaderboard, truthy]

/-- C10 at the initial state: an empty response ends in the empty view. -/
theorem fetchLeaderboard_views_witness :
    render (fetchLeaderboard State.init (Except.ok [])).1 = View.emptyCard :=
  (fetchLeaderboard_views State.init (Except.ok []) Reachable.init).2.2.2.2.2.2.2.2.2

end LeaderboardPage

/-! ## Upload page -/

namespace UploadPage

/-- C7 as stated fails: with a file selected whose base64 conversion fails, `handleUpload`
issues no upload request at all (not exactly one). -/
theorem handleUpload_conversion_failure_sends_nothing :
    (handleUpload
        { selectedFile := some { name := "car.png", type := "image/png" }, preview := none,
          uploading := false, uploaded := false }
        (Except.error ()) (Except.ok "id-1")).2
      = [Effect.readAsDataURL { name := "car.png", type := "image/png" },
         Effect.consoleError "Upload failed:",
         Effect.alert "Upload failed. Please try again."] ∧
    (uploadRequests
        (handleUpload
          { selectedFile := some { name := "car.png", type := "image/png" }, preview := none,
            uploading := false, uploaded := false }
          (Except.error ()) (Except.ok "id-1")).2).length ≠ 1 := by
  constructor
  · rfl
  · decide

/-- C7, amended: with no selected file `handleUpload` issues no request and changes no
state. With a selected file it issues exactly one upload request, carrying the converted
data, when the base64 conversion succeeds, and none when the conversion fails; starting
from `uploaded = false` (the only states whose page has an upload button), `uploaded`
becomes true if and only if both the conversion and the request succeed; `uploading` is
false when `handleUpload` finishes, and the selected file and the preview are kept. -/
theorem handleUpload_outcome (s : State) (conversion : Except Unit String)
    (upload : Except AxiosError String) :
    (s.selectedFile = none → handleUpload s conversion upload = (s, [])) ∧
    (s.selectedFile ≠ none →
      (∀ data, conversion = Except.ok data →
        uploadRequests (handleUpload s conversion upload).2 = [data]) ∧
      (∀ e, conversion = Except.error e →
        uploadRequests (handleUpload s conversion upload).2 = []) ∧
      (s.uploaded = false →
        ((handleUpload s conversion upload).1.uploaded = true ↔
          conversion.isOk = true ∧ upload.isOk = true)) ∧
      (handleUpload s conversion upload).1.uploading = false ∧
      (handleUpload s conversion upload).1.selectedFile = s.selectedFile ∧
      (handleUpload s conversion upload).1.preview = s.preview) ∧
    (s.uploaded = false ↔ render s ≠ View.successCard) := by
  refine ⟨?_, ?_, ?_⟩
  · intro h
    simp [handleUpload, h]
  · intro h
    obtain ⟨file, hfile⟩ := Option.ne_none_iff_exists'.mp h
    refine ⟨?_, ?_, ?_, ?_, ?_, ?_⟩
    · rintro data rfl
      cases upload <;> simp [handleUpload, hfile, uploadRequests]
    · rintro e rfl
      simp [handleUpload, hfile, uploadRequests]
    · intro hu
      cases conversion <;> cases upload <;>
        simp [handleUpload, hfile, hu, Except.isOk, Except.toBool]
    · cases conversion <;> cases upload <;> simp [handleUpload, hfile]
    · cases conversion <;> cases upload <;> simp [handleUpload, hfile]
    · cases conversion <;> cases upload <;> simp [handleUpload, hfile]
  · cases hu : s.uploaded <;> simp [render, hu]

/-- C7 at a concrete state: a selected file, a successful conversion and a rejected
request: one request was sent and `uploaded` stays false. -/
theorem handleUpload_outcome_witness :
    uploadRequests
        (handleUpload
          { selectedFile := some { name := "car.png", type := "image/png" }, preview := none,
            uploading := false, uploaded := false }
          (Except.ok "data:image/png;base64,AAAA")
          (Except.error { responseStatus := some 500 })).2
      = ["data:image/png;base64,AAAA"] ∧
    ¬ (handleUpload
          { selectedFile := some { name := "car.png", type := "image/png" }, preview := none,
            uploading := false, uploaded := false }
          (Except.ok "data:image/png;base64,AAAA")
          (Except.error { responseStatus := some 500 })).1.uploaded = true :=
  let h := (handleUpload_outcome
    { selectedFile := some { name := "car.png", type := "image/png" }, preview := none,
      uploading := false, uploaded := false }
    (Except.ok "data:image/png;base64,AAAA")
    (Except.error { responseStatus := some 500 })).2.1 (by decide)
  ⟨h.1 _ rfl, fun hup => by
    have := (h.2.2.1 rfl).mp hup
    simp [Except.isOk, Except.toBool] at this⟩

end UploadPage

/-! ## Vote recorder -/

namespace Core

theorem get_eq_ok_iff {store : Store} {id : Nat} {s : Submission} :
    get store id = Except.ok s ↔ store.find? (fun x => x.id == id) = some s := by
  unfold get
  cases store.find? (fun x => x.id == id) <;> simp

theorem get_eq_error_iff {store : Store} {id : Nat} :
    get store id = Except.error Error.NotFound ↔ ∀ x ∈ store, x.id ≠ id := by
  unfold get
  cases h : store.find? (fun x => x.id == id) with
  | none => simpa using h
  | some s =>
    simp only [reduceCtorEq, false_iff, not_forall]
    have hm := List.mem_of_find?_eq_some h
    have hid := List.find?_some h
    exact ⟨s, hm, by simpa using hid⟩

theorem bump_id (field : Field) (s : Submission) : (bump field s).id = s.id := by
  cases field <;> rfl

theorem split_of_get {store : Store} {id : Nat} {s : Submission}
    (h : get store id = Except.ok s) :
    ∃ pre post, store = pre ++ s :: post ∧ (∀ x ∈ pre, x.id ≠ id) ∧ s.id = id ∧
      ∀ field, incremented store id field = some (pre ++ bump field s :: post) := by
  rw [get_eq_ok_iff] at h
  induction store with
  | nil => simp at h
  | cons a rest ih =>
    by_cases ha : a.id = id
    · rw [List.find?_cons_of_pos _ (by simpa using ha)] at h
      have : a = s := by simpa using h
      subst this
      exact ⟨[], rest, rfl, by simp, ha, fun field => by simp [incremented, ha]⟩
    · rw [List.find?_cons_of_neg _ (by simpa using ha)] at h
      obtain ⟨pre, post, hsplit, hpre, hid, hinc⟩ := ih h
      refine ⟨a :: pre, post, by simp [hsplit], ?_, hid, fun field => ?_⟩
      · intro x hx
        rcases List.mem_cons.mp hx with rfl | hx
        · exact ha
        · exact hpre x hx
      · simp [incremented, ha, hinc field]

theorem get_split {pre post : List Submission} {t : Submission} {id : Nat}
    (hpre : ∀ x ∈ pre, x.id ≠ id) (ht : t.id = id) :
    get (pre ++ t :: post) id = Except.ok t := by
  rw [get_eq_ok_iff]
  induction pre with
  | nil => exact List.find?_cons_of_pos _ (by simpa using ht)
  | cons a pre ih =>
    have ha : a.id ≠ id := hpre a (List.mem_cons_self _ _)
    rw [List.cons_append, List.find?_cons_of_neg _ (by simpa using ha)]
    exact ih (fun x hx => hpre x (List.mem_cons_of_mem _ hx))

theorem get_split_other {pre post : List Submission} {t u : Submission} {id : Nat}
    (htu : t.id = u.id) (hne : t.id ≠ id) :
    get (pre ++ t :: post) id = get (pre ++ u :: post) id := by
  unfold get
  have hu : u.id ≠ id := htu ▸ hne
  have h1 : (t :: post).find? (fun s => s.id == id) = post.find? (fun s => s.id == id) :=
    List.find?_cons_of_neg _ (by simpa using hne)
  have h2 : (u :: post).find? (fun s => s.id == id) = post.find? (fun s => s.id == id) :=
    List.find?_cons_of_neg _ (by simpa using hu)
  rw [List.find?_append, List.find?_append, h1, h2]

/-- C9: for an existing submission id, `record_vote id true` adds exactly 1 to `hot_votes`
of that submission and `record_vote id false` exactly 1 to its `not_votes`, leaving its
other counter, its other fields and every other submission as they were; on an unknown
id `record_vote` fails with `NotFound` and the store is unchanged. -/
theorem record_vote_frame (store : Store) (id : Nat) :
    (∀ s, get store id = Except.ok s →
      (∃ pre post, store = pre ++ s :: post ∧ (∀ x ∈ pre, x.id ≠ id) ∧
        record_vote store id true
          = (pre ++ { s with hot_votes := s.hot_votes + 1 } :: post, Except.ok ()) ∧
        record_vote store id false
          = (pre ++ { s with not_votes := s.not_votes + 1 } :: post, Except.ok ())) ∧
      get (record_vote store id true).1 id
        = Except.ok { s with hot_votes := s.hot_votes + 1 } ∧
      get (record_vote store id false).1 id
        = Except.ok { s with not_votes := s.not_votes + 1 } ∧
      (∀ is_hot, (record_vote store id is_hot).2 = Except.ok ()) ∧
      (∀ is_hot other, other ≠ id →
        get (record_vote store id is_hot).1 other = get store other)) ∧
    ((∀ x ∈ store, x.id ≠ id) →
      ∀ is_hot, record_vote store id is_hot = (store, Except.error Error.NotFound)) := by
  constructor
  · intro s hs
    obtain ⟨pre, post, hsplit, hpre, hid, hinc⟩ := split_of_get hs
    have ht : record_vote store id true
        = (pre ++ { s with hot_votes := s.hot_votes + 1 } :: post, Except.ok ()) := by
      simp [record_vote, hs, increment, hinc, bump]
    have hf : record_vote store id false
        = (pre ++ { s with not_votes := s.not_votes + 1 } :: post, Except.ok ()) := by
      simp [record_vote, hs, increment, hinc, bump]
    refine ⟨⟨pre, post, hsplit, hpre, ht, hf⟩, ?_, ?_, ?_, ?_⟩
    · rw [ht]
      exact get_split hpre hid
    · rw [hf]
      exact get_split hpre hid
    · intro is_hot
      cases is_hot
      · rw [hf]
      · rw [ht]
    · intro is_hot other hne
      have hne2 : s.id ≠ other := fun h => hne (h.symm.trans hid)
      cases is_hot
      · rw [hf, hsplit]
        exact get_split_other rfl hne2
      · rw [ht, hsplit]
        exact get_split_other rfl hne2
  · intro h is_hot
    have hg := get_eq_error_iff.mpr h
    simp [record_vote, hg]

/-- C9 at a concrete store: a hot vote on submission 2 of three, and a vote on an id the
store does not hold. -/
theorem record_vote_frame_witness :
    get (record_vote
        [{ id := 1, image := "a", hot_votes := 0, not_votes := 0, created_at := 10 },
         { id := 2, image := "b", hot_votes := 3, not_votes := 1, created_at := 11 },
         { id := 3, image := "c", hot_votes := 1, not_votes := 1, created_at := 12 }]
        2 true).1 2
      = Except.ok { id := 2, image := "b", hot_votes := 4, not_votes := 1, created_at := 11 } ∧
    record_vote
        [{ id := 1, image := "a", hot_votes := 0, not_votes := 0, created_at := 10 }]
        7 false
      = ([{ id := 1, image := "a", hot_votes := 0, not_votes := 0, created_at := 10 }],
         Except.error Error.NotFound) :=
  ⟨((record_vote_frame
      [{ id := 1, image := "a", hot_votes := 0, not_votes := 0, created_at := 10 },
       { id := 2, image := "b", hot_votes := 3, not_votes := 1, created_at := 11 },
       { id := 3, image := "c", hot_votes := 1, not_votes := 1, created_at := 12 }] 2).1
      { id := 2, image := "b", hot_votes := 3, not_votes := 1, created_at := 11 } rfl).2.1,
    (record_vote_frame _ 7).2 (by decide) false⟩

end Core

/-! ## Scoring and ranking -/

namespace Core

theorem RanksBefore.total (a b : Submission) : RanksBefore a b ∨ RanksBefore b a := by
  unfold RanksBefore
  rcases lt_trichotomy (score a) (score b) with h | h | h
  · exact Or.inr (Or.inl h)
  · rcases lt_trichotomy (total_votes a) (total_votes b) with h2 | h2 | h2
    · exact Or.inr (Or.inr ⟨h.symm, Or.inl h2⟩)
    · rcases le_total a.created_at b.created_at with h3 | h3
      · exact Or.inl (Or.inr ⟨h, Or.inr ⟨h2, h3⟩⟩)
      · exact Or.inr (Or.inr ⟨h.symm, Or.inr ⟨h2.symm, h3⟩⟩)
    · exact Or.inl (Or.inr ⟨h, Or.inl h2⟩)
  · exact Or.inl (Or.inl h)

theorem RanksBefore.trans {a b c : Submission} (hab : RanksBefore a b)
    (hbc : RanksBefore b c) : RanksBefore a c := by
  unfold RanksBefore at *
  rcases hab with h1 | ⟨e1, h1 | ⟨f1, g1⟩⟩ <;> rcases hbc with h2 | ⟨e2, h2 | ⟨f2, g2⟩⟩
  · exact Or.inl (by linarith)
  · exact Or.inl (by linarith)
  · exact Or.inl (by linarith)
  · exact Or.inl (by linarith)
  · exact Or.inr ⟨by linarith, Or.inl (by omega)⟩
  · exact Or.inr ⟨by linarith, Or.inl (by omega)⟩
  · exact Or.inl (by linarith)
  · exact Or.inr ⟨by linarith, Or.inl (by omega)⟩
  · exact Or.inr ⟨by linarith, Or.inr ⟨by omega, by omega⟩⟩

theorem RanksBefore.same_key {a b : Submission} (hab : RanksBefore a b)
    (hba : RanksBefore b a) :
    score a = score b ∧ total_votes a = total_votes b ∧ a.created_at = b.created_at := by
  unfold RanksBefore at *
  rcases hab with h1 | ⟨e1, h1 | ⟨f1, g1⟩⟩ <;> rcases hba with h2 | ⟨e2, h2 | ⟨f2, g2⟩⟩
  · linarith
  · linarith
  · linarith
  · linarith
  · omega
  · omega
  · linarith
  · omega
  · exact ⟨e1, f1, by omega⟩

theorem sorted_insertionSort_ranks (store : Store) :
    (store.insertionSort RanksBefore).Pairwise RanksBefore := by
  haveI : IsTotal Submission RanksBefore := ⟨RanksBefore.total⟩
  haveI : IsTrans Submission RanksBefore := ⟨fun _ _ _ => RanksBefore.trans⟩
  exact List.sorted_insertionSort RanksBefore store

/-- A sequence that holds the submissions of a store with pairwise distinct rank keys and
is sorted by the ranking relation is determined by the store. -/
theorem sorted_perm_unique {store l₁ l₂ : List Submission} (hd : DistinctRankKeys store)
    (p₁ : l₁.Perm store) (p₂ : l₂.Perm store) (s₁ : l₁.Pairwise RanksBefore)
    (s₂ : l₂.Pairwise RanksBefore) : l₁ = l₂ := by
  let R : Submission → Submission → Prop :=
    fun a b => RanksBefore a b ∧ (RanksBefore b a → a = b)
  haveI : IsAntisymm Submission R := ⟨fun a b hab hba => hab.2 hba.1⟩
  have strengthen : ∀ l : List Submission, l.Perm store → l.Pairwise RanksBefore →
      l.Pairwise R := by
    intro l p hs
    refine List.Pairwise.imp_of_mem ?_ hs
    intro a b ha hb hab
    refine ⟨hab, fun hba => ?_⟩
    obtain ⟨k1, k2, k3⟩ := RanksBefore.same_key hab hba
    exact hd a (p.subset ha) b (p.subset hb) k1 k2 k3
  exact List.eq_of_perm_of_sorted (p₁.trans p₂.symm) (strengthen l₁ p₁ s₁)
    (strengthen l₂ p₂ s₂)

theorem leaderboard_full (store : Store) :
    leaderboard store store.length = store.insertionSort RanksBefore := by
  unfold leaderboard
  exact List.take_of_length_le (by rw [List.length_insertionSort])

/-- C8 as stated fails: two submissions with no votes and the same creation time rank
before each other, so a store that holds both has two valid orderings, and the
leaderboard returns the one or the other with the order in which the store enumerates
them. -/
theorem leaderboard_not_unique :
    RanksBefore
        { id := 1, image := "a", hot_votes := 0, not_votes := 0, created_at := 5 }
        { id := 2, image := "b", hot_votes := 0, not_votes := 0, created_at := 5 } ∧
    RanksBefore
        { id := 2, image := "b", hot_votes := 0, not_votes := 0, created_at := 5 }
        { id := 1, image := "a", hot_votes := 0, not_votes := 0, created_at := 5 } ∧
    List.Perm
        [{ id := 2, image := "b", hot_votes := 0, not_votes := 0, created_at := 5 },
         { id := 1, image := "a", hot_votes := 0, not_votes := 0, created_at := 5 }]
        [({ id := 1, image := "a", hot_votes := 0, not_votes := 0, created_at := 5 } :
            Submission),
         { id := 2, image := "b", hot_votes := 0, not_votes := 0, created_at := 5 }] ∧
    leaderboard
        [{ id := 1, image := "a", hot_votes := 0, not_votes := 0, created_at := 5 },
         { id := 2, image := "b", hot_votes := 0, not_votes := 0, created_at := 5 }] 2
      = [{ id := 1, image := "a", hot_votes := 0, not_votes := 0, created_at := 5 },
         { id := 2, image := "b", hot_votes := 0, not_votes := 0, created_at := 5 }] ∧
    leaderboard
        [{ id := 2, image := "b", hot_votes := 0, not_votes := 0, created_at := 5 },
         { id := 1, image := "a", hot_votes := 0, not_votes := 0, created_at := 5 }] 2
      = [{ id := 2, image := "b", hot_votes := 0, not_votes := 0, created_at := 5 },
         { id := 1, image := "a", hot_votes := 0, not_votes := 0, created_at := 5 }] ∧
    leaderboard
        [{ id := 1, image := "a", hot_votes := 0, not_votes := 0, created_at := 5 },
         { id := 2, image := "b", hot_votes := 0, not_votes := 0, created_at := 5 }] 2
      ≠ leaderboard
        [{ id := 2, image := "b", hot_votes := 0, not_votes := 0, created_at := 5 },
         { id := 1, image := "a", hot_votes := 0, not_votes := 0, created_at := 5 }] 2 := by
  have hab : RanksBefore
      { id := 1, image := "a", hot_votes := 0, not_votes := 0, created_at := 5 }
      { id := 2, image := "b", hot_votes := 0, not_votes := 0, created_at := 5 } :=
    Or.inr ⟨rfl, Or.inr ⟨rfl, le_refl _⟩⟩
  have hba : RanksBefore
      { id := 2, image := "b", hot_votes := 0, not_votes := 0, created_at := 5 }
      { id := 1, image := "a", hot_votes := 0, not_votes := 0, created_at := 5 } :=
    Or.inr ⟨rfl, Or.inr ⟨rfl, le_refl _⟩⟩
  have e1 : leaderboard
      [{ id := 1, image := "a", hot_votes := 0, not_votes := 0, created_at := 5 },
       { id := 2, image := "b", hot_votes := 0, not_votes := 0, created_at := 5 }] 2
      = [{ id := 1, image := "a", hot_votes := 0, not_votes := 0, created_at := 5 },
         { id := 2, image := "b", hot_votes := 0, not_votes := 0, created_at := 5 }] :=
    (leaderboard_full _).trans (List.Sorted.insertionSort_eq (by simp [List.Sorted, hab]))
  have e2 : leaderboard
      [{ id := 2, image := "b", hot_votes := 0, not_votes := 0, created_at := 5 },
       { id := 1, image := "a", hot_votes := 0, not_votes := 0, created_at := 5 }] 2
      = [{ id := 2, image := "b", hot_votes := 0, not_votes := 0, created_at := 5 },
         { id := 1, image := "a", hot_votes := 0, not_votes := 0, created_at := 5 }] :=
    (leaderboard_full _).trans (List.Sorted.insertionSort_eq (by simp [List.Sorted, hba]))
  refine ⟨hab, hba, List.Perm.swap _ _ _, e1, e2, ?_⟩
  rw [e1, e2]
  decide

/-- C8, amended: for every store and every limit the leaderboard is sorted by the ranking
relation (non-increasing score, ties by total votes descending, then creation time
ascending), which is total and transitive, and is the first `limit` entries of a
rearrangement of the whole store; when no two submissions of the store agree on score,
total votes and creation time, that sorted sequence is the only one, so the leaderboard
does not depend on the order in which the store enumerates its submissions. -/
theorem leaderboard_sorted (store : Store) (limit : Nat) :
    (leaderboard store limit).Pairwise RanksBefore ∧
    (∀ a b, RanksBefore a b → score a ≥ score b) ∧
    (∀ a b, RanksBefore a b → score a = score b → total_votes a ≥ total_votes b) ∧
    (∀ a b, RanksBefore a b → score a = score b → total_votes a = total_votes b →
      a.created_at ≤ b.created_at) ∧
    (∀ a b, RanksBefore a b ∨ RanksBefore b a) ∧
    (∀ a b c, RanksBefore a b → RanksBefore b c → RanksBefore a c) ∧
    (leaderboard store store.length).Perm store ∧
    leaderboard store limit = (leaderboard store store.length).take limit ∧
    (leaderboard store limit).length = min limit store.length ∧
    leaderboard store 0 = [] ∧
    (DistinctRankKeys store →
      (∀ l : List Submission, l.Perm store → l.Pairwise RanksBefore →
        leaderboard store limit = l.take limit) ∧
      (∀ store' : Store, store'.Perm store →
        leaderboard store' limit = leaderboard store limit)) := by
  have hsorted : ∀ st : Store, (st.insertionSort RanksBefore).Pairwise RanksBefore :=
    sorted_insertionSort_ranks
  refine ⟨?_, ?_, ?_, ?_, RanksBefore.total, fun _ _ _ => RanksBefore.trans, ?_, ?_, ?_, ?_, ?_⟩
  · exact (hsorted store).sublist (List.take_sublist _ _)
  · intro a b h
    unfold RanksBefore at h
    rcases h with h | ⟨h, -⟩
    · exact le_of_lt h
    · exact le_of_eq h.symm
  · intro a b h he
    unfold RanksBefore at h
    rcases h with h | ⟨-, h | ⟨h, -⟩⟩
    · exact absurd he (ne_of_gt h)
    · exact le_of_lt h
    · exact le_of_eq h.symm
  · intro a b h he ht
    unfold RanksBefore at h
    rcases h with h | ⟨-, h | ⟨-, h⟩⟩
    · exact absurd he (ne_of_gt h)
    · exact absurd ht (ne_of_gt h)
    · exact h
  · rw [leaderboard_full]
    exact List.perm_insertionSort RanksBefore store
  · rw [leaderboard_full]
    rfl
  · simp [leaderboard, List.length_take, List.length_insertionSort]
  · simp [leaderboard]
  · intro hd
    have huniq : ∀ l : List Submission, l.Perm store → l.Pairwise RanksBefore →
        leaderboard store limit = l.take limit := by
      intro l p hs
      have : store.insertionSort RanksBefore = l :=
        sorted_perm_unique hd (List.perm_insertionSort RanksBefore store) p (hsorted store) hs
      simp [leaderboard, this]
    refine ⟨huniq, fun store' p => ?_⟩
    rw [huniq (store'.insertionSort RanksBefore)
      ((List.perm_insertionSort RanksBefore store').trans p) (hsorted store')]
    rfl

/-- C8 at a concrete store: submission 1 (9 of 10 hot) and submission 3 (18 of 20 hot)
tie on score and the larger total wins, and the result is the same whichever way the
store enumerates. -/
theorem leaderboard_sorted_witness :
    leaderboard
        [{ id := 1, image := "a", hot_votes := 9, not_votes := 1, created_at := 10 },
         { id := 2, image := "b", hot_votes := 1, not_votes := 1, created_at := 20 },
         { id := 3, image := "c", hot_votes := 18, not_votes := 2, created_at := 30 }] 2
      = [{ id := 3, image := "c", hot_votes := 18, not_votes := 2, created_at := 30 },
         { id := 1, image := "a", hot_votes := 9, not_votes := 1, created_at := 10 }] ∧
    leaderboard
        [{ id := 3, image := "c", hot_votes := 18, not_votes := 2, created_at := 30 },
         { id := 2, image := "b", hot_votes := 1, not_votes := 1, created_at := 20 },
         { id := 1, image := "a", hot_votes := 9, not_votes := 1, created_at := 10 }] 2
      = leaderboard
        [{ id := 1, image := "a", hot_votes := 9, not_votes := 1, created_at := 10 },
         { id := 2, image := "b", hot_votes := 1, not_votes := 1, created_at := 20 },
         { id := 3, image := "c", hot_votes := 18, not_votes := 2, created_at := 30 }] 2 := by
  have hd : DistinctRankKeys
      [{ id := 1, image := "a", hot_votes := 9, not_votes := 1, created_at := 10 },
       { id := 2, image := "b", hot_votes := 1, not_votes := 1, created_at := 20 },
       { id := 3, image := "c", hot_votes := 18, not_votes := 2, created_at := 30 }] := by
    intro a ha b hb _ _ hc
    simp only [List.mem_cons, List.mem_singleton, List.not_mem_nil, or_false] at ha hb
    rcases ha with rfl | rfl | rfl <;> rcases hb with rfl | rfl | rfl <;>
      first | rfl | (exact absurd hc (by decide))
  have h := (leaderboard_sorted
    [{ id := 1, image := "a", hot_votes := 9, not_votes := 1, created_at := 10 },
     { id := 2, image := "b", hot_votes := 1, not_votes := 1, created_at := 20 },
     { id := 3, image := "c", hot_votes := 18, not_votes := 2, created_at := 30 }]
    2).2.2.2.2.2.2.2.2.2.2 hd
  constructor
  · refine h.1
      [{ id := 3, image := "c", hot_votes := 18, not_votes := 2, created_at := 30 },
       { id := 1, image := "a", hot_votes := 9, not_votes := 1, created_at := 10 },
       { id := 2, image := "b", hot_votes := 1, not_votes := 1, created_at := 20 }] ?_ ?_
    · exact (List.Perm.swap _ _ _).trans (List.Perm.cons _ (List.Perm.swap _ _ _))
    · simp only [List.pairwise_cons, List.mem_cons, List.mem_singleton, List.not_mem_nil,
        forall_eq_or_imp, forall_eq, RanksBefore, score, total_votes]
      norm_num
  · exact h.2 _ ((List.Perm.swap _ _ _).trans
      ((List.Perm.cons _ (List.Perm.swap _ _ _)).trans (List.Perm.swap _ _ _)))

end Core

/-! ## Voting page: one successful vote per mount -/

namespace VotingPage

theorem fetchRandomCar_keeps (s : State) (outcome : Except AxiosError Car) :
    (fetchRandomCar s outcome).1.voting = s.voting ∧
      (fetchRandomCar s outcome).1.votesCount = s.votesCount ∧
      voteRequests (fetchRandomCar s outcome).2 = [] := by
  cases outcome with
  | ok data => exact ⟨rfl, rfl, rfl⟩
  | error e =>
    simp only [fetchRandomCar]
    split <;> exact ⟨rfl, rfl, rfl⟩

theorem handleVote_of_voting {s : State} (h : s.voting = true) (isHot : Bool)
    (outcome : Except AxiosError Unit) : handleVote s isHot outcome = (s, []) := by
  unfold handleVote
  cases hc : s.currentCar <;> simp [h]

theorem handleVote_error_keeps (s : State) (isHot : Bool) (e : AxiosError) :
    (handleVote s isHot (Except.error e)).1.votesCount = s.votesCount := by
  unfold handleVote
  cases hc : s.currentCar with
  | none => rfl
  | some car => cases hv : s.voting <;> simp

theorem handleVote_ok_sent {s : State} {car : Car} (hcar : s.currentCar = some car)
    (hvoting : s.voting = false) (isHot : Bool) (a : Unit) :
    (handleVote s isHot (Except.ok a)).1.voting = true ∧
      (handleVote s isHot (Except.ok a)).1.votesCount = s.votesCount + 1 ∧
      voteRequests (handleVote s isHot (Except.ok a)).2
        = [{ car_id := car.id, is_hot := isHot }] := by
  simp [handleVote, hcar, hvoting, voteRequests]

theorem handleVote_of_no_car {s : State} (h : s.currentCar = none) (isHot : Bool)
    (outcome : Except AxiosError Unit) : handleVote s isHot outcome = (s, []) := by
  simp [handleVote, h]

theorem perform_of_voting {s : State} (h : s.voting = true) (e : Event) :
    (perform s e).1.voting = true ∧ (perform s e).1.votesCount = s.votesCount ∧
      voteRequests (perform s e).2 = [] := by
  cases e with
  | fetchRandomCar outcome =>
    obtain ⟨h1, h2, h3⟩ := fetchRandomCar_keeps s outcome
    exact ⟨by simpa [perform, h1] using h, by simpa [perform] using h2,
      by simpa [perform] using h3⟩
  | handleVote isHot outcome =>
    simp [perform, handleVote_of_voting h, h, voteRequests]

theorem successfulVotes_cons_fetch (s : State) (outcome : Except AxiosError Car)
    (es : List Event) :
    successfulVotes s (Event.fetchRandomCar outcome :: es)
      = successfulVotes (fetchRandomCar s outcome).1 es := by
  simp [successfulVotes, perform]

theorem successfulVotes_cons_error (s : State) (isHot : Bool) (e : AxiosError)
    (es : List Event) :
    successfulVotes s (Event.handleVote isHot (Except.error e) :: es)
      = successfulVotes (handleVote s isHot (Except.error e)).1 es := by
  simp [successfulVotes, perform]

theorem successfulVotes_cons_ok (s : State) (isHot : Bool) (a : Unit) (es : List Event) :
    successfulVotes s (Event.handleVote isHot (Except.ok a) :: es)
      = (voteRequests (handleVote s isHot (Except.ok a)).2).length
        + successfulVotes (handleVote s isHot (Except.ok a)).1 es := by
  simp [successfulVotes]

/-- Once `voting` is set, no sequence of handler runs clears it, changes the count or
sends a vote. -/
theorem run_of_voting (es : List Event) :
    ∀ s : State, s.voting = true →
      (run s es).voting = true ∧ (run s es).votesCount = s.votesCount ∧
        requestsSent s es = [] ∧ successfulVotes s es = 0 := by
  induction es with
  | nil => intro s h; exact ⟨h, rfl, rfl, rfl⟩
  | cons e es ih =>
    intro s h
    obtain ⟨h1, h2, h3⟩ := perform_of_voting h e
    obtain ⟨i1, i2, i3, i4⟩ := ih (perform s e).1 h1
    refine ⟨i1, i2.trans h2, by simp [requestsSent, h3, i3], ?_⟩
    cases e with
    | fetchRandomCar outcome =>
      rw [successfulVotes_cons_fetch]
      exact i4
    | handleVote isHot outcome =>
      cases outcome with
      | error e =>
        rw [successfulVotes_cons_error]
        exact i4
      | ok a =>
        rw [successfulVotes_cons_ok]
        have h4 : voteRequests (handleVote s isHot (Except.ok a)).2 = [] := h3
        rw [h4]
        simpa using i4

/-- The count shown in the header is the number of votes that succeeded, and that number
is at most 1. -/
theorem run_votesCount (es : List Event) :
    ∀ s : State, (run s es).votesCount = s.votesCount + successfulVotes s es ∧
      successfulVotes s es ≤ 1 := by
  induction es with
  | nil => intro s; exact ⟨rfl, Nat.zero_le _⟩
  | cons e es ih =>
    intro s
    cases e with
    | fetchRandomCar outcome =>
      rw [successfulVotes_cons_fetch]
      obtain ⟨i1, i2⟩ := ih (fetchRandomCar s outcome).1
      exact ⟨by simpa [run, perform, (fetchRandomCar_keeps s outcome).2.1] using i1, i2⟩
    | handleVote isHot outcome =>
      cases outcome with
      | error e =>
        rw [successfulVotes_cons_error]
        obtain ⟨i1, i2⟩ := ih (handleVote s isHot (Except.error e)).1
        exact ⟨by simpa [run, perform, handleVote_error_keeps] using i1, i2⟩
      | ok a =>
        rw [successfulVotes_cons_ok]
        cases hv : s.voting with
        | true =>
          rw [handleVote_of_voting hv]
          obtain ⟨i1, i2⟩ := ih s
          refine ⟨?_, by simpa [voteRequests] using i2⟩
          simpa [run, perform, handleVote_of_voting hv, voteRequests] using i1
        | false =>
          cases hc : s.currentCar with
          | none =>
            rw [handleVote_of_no_car hc]
            obtain ⟨i1, i2⟩ := ih s
            refine ⟨?_, by simpa [voteRequests] using i2⟩
            simpa [run, perform, handleVote_of_no_car hc, voteRequests] using i1
          | some car =>
            obtain ⟨h1, h2, h3⟩ := handleVote_ok_sent hc hv isHot a
            obtain ⟨j1, j2, -, j4⟩ :=
              run_of_voting es (handleVote s isHot (Except.ok a)).1 h1
            rw [h3, j4]
            refine ⟨?_, by simp⟩
            have : run s (Event.handleVote isHot (Except.ok a) :: es)
                = run (handleVote s isHot (Except.ok a)).1 es := rfl
            rw [this, j2, h2]
            simp

theorem run_append (es₁ es₂ : List Event) :
    ∀ s : State, run s (es₁ ++ es₂) = run (run s es₁) es₂ := by
  induction es₁ with
  | nil => intro s; rfl
  | cons e es ih => intro s; exact ih (perform s e).1

theorem Reachable.exists_run {s : State} (h : Reachable s) :
    ∃ es, s = run State.init es := by
  induction h with
  | init => exact ⟨[], rfl⟩
  | @step s t _ hstep ih =>
    obtain ⟨es, rfl⟩ := ih
    cases hstep with
    | fetch outcome =>
      exact ⟨es ++ [Event.fetchRandomCar outcome], by rw [run_append]; rfl⟩
    | vote isHot outcome =>
      exact ⟨es ++ [Event.handleVote isHot outcome], by rw [run_append]; rfl⟩

theorem Reachable.of_run (es : List Event) :
    ∀ s : State, Reachable s → Reachable (run s es) := by
  induction es with
  | nil => intro s h; exact h
  | cons e es ih =>
    intro s h
    refine ih (perform s e).1 (Reachable.step h ?_)
    cases e with
    | fetchRandomCar outcome => exact Step.fetch s outcome
    | handleVote isHot outcome => exact Step.vote s isHot outcome

/-- C11: when a `handleVote` run on a mounted page sends its request and the request
succeeds, `voting` is true in the state it leaves and in every state any later sequence of
`fetchRandomCar` and `handleVote` runs reaches; there both vote buttons are disabled,
every `handleVote` call returns without a request or a state change, and the count is 1.
`fetchRandomCar` never writes `voting` (on success it clears `voted`). Over any sequence
of runs from mount at most one vote succeeds and `votesCount`, which counts them, never
exceeds 1. -/
theorem vote_once (history later : List Event) (car : Car) (isHot : Bool)
    (hcar : (run State.init history).currentCar = some car)
    (hvoting : (run State.init history).voting = false) :
    voteRequests (handleVote (run State.init history) isHot (Except.ok ())).2
      = [{ car_id := car.id, is_hot := isHot }] ∧
    (run (handleVote (run State.init history) isHot (Except.ok ())).1 later).voting = true ∧
    (∀ b ∈ voteButtons
        (run (handleVote (run State.init history) isHot (Except.ok ())).1 later),
      b.disabled = true) ∧
    (∀ again outcome,
      handleVote (run (handleVote (run State.init history) isHot (Except.ok ())).1 later)
          again outcome
        = (run (handleVote (run State.init history) isHot (Except.ok ())).1 later, [])) ∧
    requestsSent (handleVote (run State.init history) isHot (Except.ok ())).1 later = [] ∧
    (run (handleVote (run State.init history) isHot (Except.ok ())).1 later).votesCount = 1 ∧
    (∀ (s : State) (outcome : Except AxiosError Car),
      (fetchRandomCar s outcome).1.voting = s.voting) ∧
    (∀ (s : State) (data : Car), (fetchRandomCar s (Except.ok data)).1.voted = false) ∧
    (∀ es, successfulVotes State.init es ≤ 1 ∧
      (run State.init es).votesCount = successfulVotes State.init es) ∧
    (∀ s, Reachable s → s.votesCount ≤ 1) := by
  obtain ⟨h1, h2, h3⟩ := handleVote_ok_sent hcar hvoting isHot ()
  obtain ⟨j1, j2, j3, -⟩ :=
    run_of_voting later (handleVote (run State.init history) isHot (Except.ok ())).1 h1
  have hglobal : ∀ es, successfulVotes State.init es ≤ 1 ∧
      (run State.init es).votesCount = successfulVotes State.init es := by
    intro es
    obtain ⟨k1, k2⟩ := run_votesCount es State.init
    exact ⟨k2, by simpa [State.init] using k1⟩
  have hcount : ∀ s, Reachable s → s.votesCount ≤ 1 := by
    intro s hs
    obtain ⟨es, rfl⟩ := hs.exists_run
    rw [(hglobal es).2]
    exact (hglobal es).1
  refine ⟨h3, j1, ?_, fun again outcome => handleVote_of_voting j1 again outcome, j3, ?_,
    fun s outcome => (fetchRandomCar_keeps s outcome).1, fun _ _ => rfl, hglobal, hcount⟩
  · intro b hb
    simp only [voteButtons, VoteButton, List.mem_cons, List.mem_singleton,
      List.not_mem_nil, or_false] at hb
    rcases hb with rfl | rfl <;> simp [j1]
  · have hle : (run State.init (history ++ Event.handleVote isHot (Except.ok ()) :: later)).votesCount
        ≤ 1 := hcount _ (Reachable.of_run _ _ Reachable.init)
    rw [run_append] at hle
    have : run (run State.init history) (Event.handleVote isHot (Except.ok ()) :: later)
        = run (handleVote (run State.init history) isHot (Except.ok ())).1 later := rfl
    rw [this] at hle
    rw [j2, h2] at hle ⊢
    omega

/-- C11 at a concrete session: the first car loads, a HOT vote succeeds, the next car
loads, and a NOT vote is attempted: the flag is still set, nothing was sent for the second
car and the count is 1. -/
theorem vote_once_witness :
    (run State.init
      [Event.fetchRandomCar
         (Except.ok
         { id := "c1", photo := "p1", hot_votes := 0, not_votes := 0, total_votes := 0,
           score := 0 }),
       Event.handleVote true (Except.ok ()),
       Event.fetchRandomCar
         (Except.ok
         { id := "c2", photo := "p2", hot_votes := 0, not_votes := 0, total_votes := 0,
           score := 0 }),
       Event.handleVote false (Except.ok ())]).voting = true ∧
    (run State.init
      [Event.fetchRandomCar
         (Except.ok
         { id := "c1", photo := "p1", hot_votes := 0, not_votes := 0, total_votes := 0,
           score := 0 }),
       Event.handleVote true (Except.ok ()),
       Event.fetchRandomCar
         (Except.ok
         { id := "c2", photo := "p2", hot_votes := 0, not_votes := 0, total_votes := 0,
           score := 0 }),
       Event.handleVote false (Except.ok ())]).votesCount = 1 :=
  let h := vote_once
      [Event.fetchRandomCar
         (Except.ok
         { id := "c1", photo := "p1", hot_votes := 0, not_votes := 0, total_votes := 0,
           score := 0 })]
      [Event.fetchRandomCar
         (Except.ok
         { id := "c2", photo := "p2", hot_votes := 0, not_votes := 0, total_votes := 0,
           score := 0 }),
       Event.handleVote false (Except.ok ())]
      { id := "c1", photo := "p1", hot_votes := 0, not_votes := 0, total_votes := 0,
        score := 0 }
      true rfl rfl
  ⟨h.2.1, h.2.2.2.2.2.1⟩

end VotingPage

/-! ## Upload page: file acceptance -/

namespace UploadPage

theorem handleDrop_eq_handleFileSelect (s : State) (files : List File)
    (dataURL : Option String) :
    handleDrop s files dataURL = handleFileSelect s files dataURL := by
  cases files with
  | nil => rfl
  | cons file rest => simp [handleDrop, handleFileSelect]

theorem handleFileSelect_accept (s : State) (file : File) (rest : List File)
    (dataURL : Option String) (h : startsWith file.type "image/" = true) :
    (handleFileSelect s (file :: rest) dataURL).selectedFile = some file ∧
      (handleFileSelect s (file :: rest) dataURL).preview
        = (match dataURL with
          | some result => some result
          | none => s.preview) := by
  cases dataURL <;> simp [handleFileSelect, h]

theorem handleFileSelect_reject (s : State) (file : File) (rest : List File)
    (dataURL : Option String) (h : startsWith file.type "image/" = false) :
    handleFileSelect s (file :: rest) dataURL = s := by
  simp [handleFileSelect, h]

theorem handleUpload_selectedFile (s : State) (conversion : Except Unit String)
    (upload : Except AxiosError String) :
    (handleUpload s conversion upload).1.selectedFile = s.selectedFile := by
  unfold handleUpload
  cases hf : s.selectedFile with
  | none => simp [hf]
  | some file => cases conversion <;> cases upload <;> simp [hf]

/-- On a mounted upload page the selected file, if any, has an image MIME type. -/
theorem Reachable.selected_image {s : State} (h : Reachable s) :
    ∀ f, s.selectedFile = some f → startsWith f.type "image/" = true := by
  induction h with
  | init => intro f hf; cases hf
  | @step s t _ hstep ih =>
    have select : ∀ files dataURL f,
        (handleFileSelect s files dataURL).selectedFile = some f →
          startsWith f.type "image/" = true := by
      intro files dataURL f hf
      cases files with
      | nil => exact ih f hf
      | cons file rest =>
        cases ha : startsWith file.type "image/" with
        | false =>
          rw [handleFileSelect_reject s file rest dataURL ha] at hf
          exact ih f hf
        | true =>
          rw [(handleFileSelect_accept s file rest dataURL ha).1] at hf
          cases hf
          exact ha
    cases hstep with
    | select files dataURL => exact select files dataURL
    | drop files dataURL =>
      rw [handleDrop_eq_handleFileSelect]
      exact select files dataURL
    | upload conversion upload =>
      rw [handleUpload_selectedFile]
      exact ih

/-- C12: both handlers look only at the first file offered. If its MIME type starts with
`image/` they set `selectedFile` to it (and `preview` to the data URL once the reader
delivers one); with no file, or a first file of another type, they leave the whole state,
`selectedFile` and `preview` included, as it was. On a mounted page `selectedFile`
therefore ends as the first file offered if and only if its type starts with `image/`.
The drag-and-drop handler and the picker handler agree on every input. -/
theorem file_acceptance (s : State) (files : List File) (dataURL : Option String) :
    handleDrop s files dataURL = handleFileSelect s files dataURL ∧
    (files = [] → handleFileSelect s files dataURL = s ∧ handleDrop s files dataURL = s) ∧
    (∀ file rest, files = file :: rest → startsWith file.type "image/" = true →
      (handleFileSelect s files dataURL).selectedFile = some file ∧
      (handleDrop s files dataURL).selectedFile = some file ∧
      (∀ result, dataURL = some result →
        (handleFileSelect s files dataURL).preview = some result ∧
        (handleDrop s files dataURL).preview = some result) ∧
      (dataURL = none →
        (handleFileSelect s files dataURL).preview = s.preview ∧
        (handleDrop s files dataURL).preview = s.preview)) ∧
    (∀ file rest, files = file :: rest → startsWith file.type "image/" = false →
      handleFileSelect s files dataURL = s ∧ handleDrop s files dataURL = s) ∧
    (Reachable s → ∀ file rest, files = file :: rest →
      ((handleFileSelect s files dataURL).selectedFile = some file ↔
        startsWith file.type "image/" = true) ∧
      ((handleDrop s files dataURL).selectedFile = some file ↔
        startsWith file.type "image/" = true)) ∧
    (handleFileSelect s files dataURL).uploading = s.uploading ∧
    (handleFileSelect s files dataURL).uploaded = s.uploaded := by
  have heq := handleDrop_eq_handleFileSelect s files dataURL
  rw [heq]
  refine ⟨rfl, ?_, ?_, ?_, ?_, ?_, ?_⟩
  · rintro rfl
    exact ⟨rfl, rfl⟩
  · rintro file rest rfl ha
    obtain ⟨h1, h2⟩ := handleFileSelect_accept s file rest dataURL ha
    refine ⟨h1, h1, ?_, ?_⟩
    · rintro result rfl
      exact ⟨h2, h2⟩
    · rintro rfl
      exact ⟨h2, h2⟩
  · rintro file rest rfl ha
    have := handleFileSelect_reject s file rest dataURL ha
    exact ⟨this, this⟩
  · rintro hr file rest rfl
    have key : (handleFileSelect s (file :: rest) dataURL).selectedFile = some file ↔
        startsWith file.type "image/" = true := by
      constructor
      · intro hsel
        cases ha : startsWith file.type "image/" with
        | true => rfl
        | false =>
          rw [handleFileSelect_reject s file rest dataURL ha] at hsel
          rw [← ha]
          exact hr.selected_image file hsel
      · intro ha
        exact (handleFileSelect_accept s file rest dataURL ha).1
    exact ⟨key, key⟩
  · cases files with
    | nil => rfl
    | cons file rest =>
      cases ha : startsWith file.type "image/" <;> cases dataURL <;>
        simp [handleFileSelect, ha]
  · cases files with
    | nil => rfl
    | cons file rest =>
      cases ha : startsWith file.type "image/" <;> cases dataURL <;>
        simp [handleFileSelect, ha]

/-- C12 at concrete inputs: a dropped PNG is selected, a PDF offered in the picker is
not. -/
theorem file_acceptance_witness :
    (handleDrop State.init
        [{ name := "car.png", type := "image/png" }, { name := "notes.txt", type := "text/plain" }]
        (some "data:image/png;base64,AAAA")).selectedFile
      = some { name := "car.png", type := "image/png" } ∧
    handleFileSelect State.init [{ name := "car.pdf", type := "application/pdf" }] none
      = State.init :=
  ⟨((file_acceptance State.init _ _).2.2.1 _ _ rfl (by decide)).2.1,
   ((file_acceptance State.init _ none).2.2.2.1 _ _ rfl (by decide)).1⟩

end UploadPage

/-! ## Leaderboard page: score colours -/

namespace LeaderboardPage

theorem threshold_values : (0.8 : ℚ) = 4 / 5 ∧ (0.6 : ℚ) = 3 / 5 ∧ (0.4 : ℚ) = 2 / 5 := by
  norm_num

/-- C13: `getScoreColor` returns `text-red-500` exactly for `score ≥ 0.8`,
`text-orange-500` exactly for `0.6 ≤ score < 0.8`, `text-yellow-500` exactly for
`0.4 ≤ score < 0.6` and `text-gray-500` exactly for `score < 0.4`; it returns one of these
four classes for every score, and a higher score never gets a lower band. -/
theorem getScoreColor_bands (score : ℚ) :
    (getScoreColor score = "text-red-500" ↔ score ≥ 0.8) ∧
    (getScoreColor score = "text-orange-500" ↔ 0.6 ≤ score ∧ score < 0.8) ∧
    (getScoreColor score = "text-yellow-500" ↔ 0.4 ≤ score ∧ score < 0.6) ∧
    (getScoreColor score = "text-gray-500" ↔ score < 0.4) ∧
    getScoreColor score
      ∈ ["text-red-500", "text-orange-500", "text-yellow-500", "text-gray-500"] ∧
    (∀ higher : ℚ, score ≤ higher →
      bandRank (getScoreColor score) ≤ bandRank (getScoreColor higher)) ∧
    bandRank "text-gray-500" = 0 ∧ bandRank "text-yellow-500" = 1 ∧
    bandRank "text-orange-500" = 2 ∧ bandRank "text-red-500" = 3 := by
  obtain ⟨e8, e6, e4⟩ := threshold_values
  refine ⟨?_, ?_, ?_, ?_, ?_, ?_, by decide, by decide, by decide, by decide⟩
  · unfold getScoreColor
    rw [e8, e6, e4]
    split_ifs with h1 h2 h3
    · simp [h1]
    · simp only [show ¬ ("text-orange-500" = "text-red-500") by decide, false_iff]
      exact h1
    · simp only [show ¬ ("text-yellow-500" = "text-red-500") by decide, false_iff]
      exact h1
    · simp only [show ¬ ("text-gray-500" = "text-red-500") by decide, false_iff]
      exact h1
  · unfold getScoreColor
    rw [e8, e6, e4]
    split_ifs with h1 h2 h3
    · simp only [show ¬ ("text-red-500" = "text-orange-500") by decide, false_iff]
      intro h
      exact absurd h1 (not_le.mpr h.2)
    · simp only [true_iff]
      exact ⟨h2, not_le.mp h1⟩
    · simp only [show ¬ ("text-yellow-500" = "text-orange-500") by decide, false_iff]
      intro h
      exact h2 h.1
    · simp only [show ¬ ("text-gray-500" = "text-orange-500") by decide, false_iff]
      intro h
      exact h2 h.1
  · unfold getScoreColor
    rw [e8, e6, e4]
    split_ifs with h1 h2 h3
    · simp only [show ¬ ("text-red-500" = "text-yellow-500") by decide, false_iff]
      intro h
      have := h.2
      linarith
    · simp only [show ¬ ("text-orange-500" = "text-yellow-500") by decide, false_iff]
      intro h
      exact absurd h2 (not_le.mpr h.2)
    · simp only [true_iff]
      exact ⟨h3, not_le.mp h2⟩
    · simp only [show ¬ ("text-gray-500" = "text-yellow-500") by decide, false_iff]
      intro h
      exact h3 h.1
  · unfold getScoreColor
    rw [e8, e6, e4]
    split_ifs with h1 h2 h3
    · simp only [show ¬ ("text-red-500" = "text-gray-500") by decide, false_iff]
      intro h
      linarith
    · simp only [show ¬ ("text-orange-500" = "text-gray-500") by decide, false_iff]
      intro h
      linarith
    · simp only [show ¬ ("text-yellow-500" = "text-gray-500") by decide, false_iff]
      intro h
      linarith
    · simp only [true_iff]
      exact not_le.mp h3
  · unfold getScoreColor
    split_ifs <;> simp
  · intro higher hle
    unfold getScoreColor
    rw [e8, e6, e4]
    split_ifs <;> first | decide | (exfalso; linarith)

/-- C13 at concrete scores: 9/10 is red, 7/10 orange, 1/2 yellow, 0 gray. -/
theorem getScoreColor_bands_witness :
    getScoreColor (9 / 10) = "text-red-500" ∧ getScoreColor (7 / 10) = "text-orange-500" ∧
      getScoreColor (1 / 2) = "text-yellow-500" ∧ getScoreColor 0 = "text-gray-500" :=
  ⟨(getScoreColor_bands _).1.mpr (by norm_num),
   (getScoreColor_bands _).2.1.mpr (by norm_num),
   (getScoreColor_bands _).2.2.1.mpr (by norm_num),
   (getScoreColor_bands _).2.2.2.1.mpr (by norm_num)⟩

end LeaderboardPage

end RateMyRide
